import Mathlib

/-!
# Verification of the incident status-lifecycle and team-assignment engine

Shallow embedding of the core of the `backend_host` repository:
the status machine (`StatusValidationService.js`), the intelligent /
rule-based team selection and assignment services, the revert route
(`routes/manager.js`), and the automated scheduler
(`AutomatedSchedulingService.js`).

Statuses are the literal strings used by the code
(`"Not Started"`, `"verified"`, `"assigned"`, `"In Progress"`,
`"Completed"`, `"Cancelled"`).  JavaScript floating-point arithmetic in
the team-scoring formulas is embedded over `ℚ`; epoch timestamps are `ℤ`
milliseconds.
-/

namespace BackendHost

/-! ## JavaScript string helpers -/

/-- Boolean test that `p` is an initial segment of `l` (char lists). -/
def isPrefB : List Char → List Char → Bool
  | [], _ => true
  | _ :: _, [] => false
  | a :: as, b :: bs => a == b && isPrefB as bs

/-- Boolean substring containment on char lists, scanning left to right. -/
def containsSeg (needle : List Char) : List Char → Bool
  | [] => needle.isEmpty
  | l@(_ :: tl) => isPrefB needle l || containsSeg needle tl

/-- Model of JavaScript `hay.includes(needle)` (substring containment). -/
def strIncludes (hay needle : String) : Bool :=
  containsSeg needle.toList hay.toList

/-- Model of JavaScript `s.toLowerCase()` (ASCII lowering suffices for the
repository's keyword data). -/
def jsToLower (s : String) : String :=
  String.mk (s.toList.map Char.toLower)

/-! ## Status machine (`src/services/StatusValidationService.js`)

`statusTransitions` is the object literal from the constructor
(lines 13–28).  Note that it has **no** `'assigned'` key: the JS lookup
`this.statusTransitions[currentStatus] || []` yields `[]` for `'assigned'`
and for any unknown status. -/

/-- The `statusTransitions` object of `StatusValidationService`, as an
association list in the source's key order. -/
def statusTransitionsTable : List (String × List String) :=
  [("Not Started", ["verified"]),
   ("verified", ["In Progress", "Completed", "Cancelled"]),
   ("In Progress", ["Completed", "Cancelled"]),
   ("Completed", []),
   ("Cancelled", [])]

/-- `this.statusTransitions[currentStatus] || []`. -/
def allowedTransitions (currentStatus : String) : List String :=
  (statusTransitionsTable.lookup currentStatus).getD []

/-- The rejection message built by `validateStatusTransition`: it names the
`(current, new)` pair and lists the allowed destinations, or `None` when the
list is empty (JS `allowedTransitions.join(', ') || 'None'`). -/
def transitionErrorMessage (currentStatus newStatus : String) : String :=
  "Invalid status transition from \x27" ++ currentStatus ++ "\x27 to \x27" ++
    newStatus ++ "\x27. Allowed transitions: " ++
    (let j := String.intercalate ", " (allowedTransitions currentStatus)
     if j = "" then "None" else j)

/-- Result record `{valid, error?}` returned by the validators. -/
structure ValidationResult where
  valid : Bool
  error : Option String
deriving DecidableEq, Repr

/-- `validateStatusTransition(currentStatus, newStatus)`
(`StatusValidationService.js` lines 63–74). -/
def validateStatusTransition (currentStatus newStatus : String) : ValidationResult :=
  if (allowedTransitions currentStatus).contains newStatus then
    ⟨true, none⟩
  else
    ⟨false, some (transitionErrorMessage currentStatus newStatus)⟩

/-- `statusesRequiringTeamAssignment` (line 31). -/
def statusesRequiringTeamAssignment : List String :=
  ["assigned", "In Progress", "Completed"]

/-- `requiresTeamAssignment(status)`. -/
def requiresTeamAssignment (status : String) : Bool :=
  statusesRequiringTeamAssignment.contains status

/-- `statusesRequiringManagerAuth` (line 34). -/
def statusesRequiringManagerAuth : List String :=
  ["verified", "assigned", "In Progress", "Completed", "Cancelled"]

/-- `requiresManagerAuthorization(status)`. -/
def requiresManagerAuthorization (status : String) : Bool :=
  statusesRequiringManagerAuth.contains status

/-- One entry of `automatedProgressionRequirements` (lines 37–54). -/
structure ProgressionRequirements where
  requiresTeamAssignment : Bool
  requiresJobCard : Bool
  requiresTeamActiveMembers : Bool
  minimumTimeSinceAssignment : Nat
  requiresManagerAuthorization : Bool
  requiresCompletionReason : Bool
  requiresProperStatusProgression : Bool
deriving DecidableEq, Repr

/-- `automatedProgressionRequirements[status]`: entries exist only for
`'In Progress'` and `'Completed'`. -/
def automatedProgressionRequirements (status : String) : Option ProgressionRequirements :=
  if status = "In Progress" then
    some ⟨true, true, true, 0, true, false, false⟩
  else if status = "Completed" then
    some ⟨true, true, true, 60, true, true, true⟩
  else
    none

/-- `mapIncidentStatusToJobCardStatus` (lines 571–582). -/
def mapIncidentStatusToJobCardStatus (incidentStatus : String) : String :=
  if incidentStatus = "Not Started" then "not_started"
  else if incidentStatus = "verified" then "not_started"
  else if incidentStatus = "assigned" then "not_started"
  else if incidentStatus = "In Progress" then "in_progress"
  else if incidentStatus = "Completed" then "completed"
  else if incidentStatus = "Cancelled" then "completed"
  else "not_started"

/-! ## Data model (Sequelize rows, `src/models/`)

Rows are embedded as plain records; nullable columns are `Option`;
timestamps are `ℤ` epoch milliseconds. -/

/-- An `incidents` row (the fields the core engine touches). -/
structure IncidentRow where
  id : Nat
  title : String
  description : String
  location : String
  status : String
  assignedTeamId : Option Nat
  assignedAt : Option ℤ
  priority : Option String
  categoryReasoning : Option String
  createdAt : ℤ
deriving DecidableEq, Repr

/-- A `teams` row. -/
structure TeamRow where
  id : Nat
  name : String
  managerId : Nat
  isAvailable : Bool
  currentCapacity : Nat
  maxCapacity : Nat
  priorityLevel : Nat
  lastActivity : ℤ
  availableFrom : Option ℤ
deriving DecidableEq, Repr

/-- A `job_cards` row (`JobCard` model; the spec's WorkOrder). -/
structure JobCardRow where
  id : Nat
  incidentId : Nat
  teamId : Nat
  teamLeaderId : Option Nat
  status : String
  assignedAt : ℤ
  startedAt : Option ℤ
  completedAt : Option ℤ
deriving DecidableEq, Repr

/-- A `team_members` row. -/
structure TeamMemberRow where
  teamId : Nat
  userId : Nat
deriving DecidableEq, Repr

/-- A `users` row. -/
structure UserRow where
  id : Nat
  role : String
  status : String
deriving DecidableEq, Repr

/-- A `worker_progress` row. -/
structure WorkerProgressRow where
  jobCardId : Nat
  workerId : Nat
  status : String
deriving DecidableEq, Repr

/-- An `activity_logs` row (audit trail; `details` kept abstract). -/
structure ActivityLogRow where
  userId : Option Nat
  action : String
  tableName : String
  referenceId : Option Nat
deriving DecidableEq, Repr

/-- The relational store the services read and write. -/
structure DBState where
  incidents : List IncidentRow
  teams : List TeamRow
  jobCards : List JobCardRow
  teamMembers : List TeamMemberRow
  users : List UserRow
  workerProgress : List WorkerProgressRow
  activityLogs : List ActivityLogRow
deriving DecidableEq, Repr

/-- `Incident.findByPk(id)`. -/
def findIncident (s : DBState) (id : Nat) : Option IncidentRow :=
  s.incidents.find? (·.id = id)

/-- `Team.findOne({where: {id}})`. -/
def findTeam (s : DBState) (id : Nat) : Option TeamRow :=
  s.teams.find? (·.id = id)

/-- `User.findByPk(id)`. -/
def findUser (s : DBState) (id : Nat) : Option UserRow :=
  s.users.find? (·.id = id)

/-- The job cards of an incident, in table order (the `JobCard` include;
`incident.JobCards`). -/
def jobCardsOf (s : DBState) (incidentId : Nat) : List JobCardRow :=
  s.jobCards.filter (·.incidentId = incidentId)

/-- Whether user `userId` exists with `status: 'active'`. -/
def userActive (s : DBState) (userId : Nat) : Bool :=
  s.users.any (fun u => u.id = userId && u.status = "active")

/-- The members of a team joined with an active user
(`TeamMember` include `User where {status: 'active'}`). -/
def activeMembersOf (s : DBState) (teamId : Nat) : List TeamMemberRow :=
  s.teamMembers.filter (fun tm => tm.teamId = teamId && userActive s tm.userId)

/-- All members of a team (include without a `where` on `User`). -/
def membersOf (s : DBState) (teamId : Nat) : List TeamMemberRow :=
  s.teamMembers.filter (·.teamId = teamId)

/-- Apply `f` to the incident row with the given id (`incident.update`). -/
def updateIncidentRow (s : DBState) (id : Nat) (f : IncidentRow → IncidentRow) : DBState :=
  { s with incidents := s.incidents.map (fun i => if i.id = id then f i else i) }

/-- Apply `f` to the team row with the given id (`Team.update … where id`). -/
def updateTeamRow (s : DBState) (id : Nat) (f : TeamRow → TeamRow) : DBState :=
  { s with teams := s.teams.map (fun t => if t.id = id then f t else t) }

/-! ## Assignment rules and the categorizer
(`AutomatedAssignmentService`, `src/unnamed/part_012`) -/

/-- The per-priority block of `initializeAssignmentRules` (keywords, SLA
target in ms, per-team cap, required capabilities). -/
structure CategoryRules where
  keywords : List String
  priority : String
  slaTarget : Nat
  maxAssignmentsPerTeam : Nat
  requiredTeamCapabilities : List String
deriving DecidableEq, Repr

/-- `assignmentRules.critical`. -/
def criticalRules : CategoryRules :=
  { keywords := ["emergency", "urgent", "flood", "overflow", "sewage backup",
      "public health", "environmental", "contamination", "blockage severe",
      "pipe burst", "manhole overflow", "sewage spill"]
    priority := "critical"
    slaTarget := 4 * 60 * 60 * 1000
    maxAssignmentsPerTeam := 2
    requiredTeamCapabilities := ["emergency_response", "heavy_equipment"] }

/-- `assignmentRules.high`. -/
def highRules : CategoryRules :=
  { keywords := ["backup", "slow drainage", "odour", "noise", "localized flooding",
      "manhole damaged", "pipe damaged", "access issues"]
    priority := "high"
    slaTarget := 8 * 60 * 60 * 1000
    maxAssignmentsPerTeam := 3
    requiredTeamCapabilities := ["standard_response"] }

/-- `assignmentRules.medium`. -/
def mediumRules : CategoryRules :=
  { keywords := ["maintenance", "inspection", "cleaning", "routine", "preventive",
      "minor blockage", "odor control", "access repair"]
    priority := "medium"
    slaTarget := 24 * 60 * 60 * 1000
    maxAssignmentsPerTeam := 5
    requiredTeamCapabilities := ["standard_response", "maintenance"] }

/-- `assignmentRules.low`. -/
def lowRules : CategoryRules :=
  { keywords := ["consultation", "advice", "general inquiry", "scheduled maintenance",
      "documentation", "follow-up", "routine check"]
    priority := "low"
    slaTarget := 48 * 60 * 60 * 1000
    maxAssignmentsPerTeam := 10
    requiredTeamCapabilities := ["standard_response"] }

/-- The entries of `Object.entries(this.assignmentRules)` that carry a
`keywords` list, in the object's insertion order.  The remaining entries
(`geographic`, `time_based`, `team_capabilities`) have no `keywords` field,
so `categorizeIncident`'s `rules.keywords` guard skips them. -/
def keywordRuleEntries : List (String × CategoryRules) :=
  [("critical", criticalRules), ("high", highRules),
   ("medium", mediumRules), ("low", lowRules)]

/-- The categorization record returned by `categorizeIncident`. -/
structure Categorization where
  category : String
  rules : CategoryRules
  matchScore : Nat
  reasoning : String
deriving DecidableEq, Repr

/-- The keywords of `rules` that occur (lowercased) in `fullText`. -/
def matchedKeywords (rules : CategoryRules) (fullText : String) : List String :=
  rules.keywords.filter (fun k => strIncludes fullText (jsToLower k))

/-- The `fullText` string of `categorizeIncident`:
`` `${title} ${description} ${location}`.toLowerCase() ``. -/
def incidentFullText (i : IncidentRow) : String :=
  jsToLower (i.title ++ " " ++ i.description ++ " " ++ i.location)

/-- The category loop: first entry with at least one keyword match. -/
def firstKeywordMatch (fullText : String) :
    List (String × CategoryRules) → Option Categorization
  | [] => none
  | (category, rules) :: rest =>
    let matched := matchedKeywords rules fullText
    if matched.length > 0 then
      some { category := category, rules := rules, matchScore := matched.length,
             reasoning := "Matched " ++ toString matched.length ++ " keywords: " ++
               String.intercalate ", " matched }
    else
      firstKeywordMatch fullText rest

/-- `categorizeIncident(incident)` (`part_012` lines 138–167): first
category, in declaration order, with ≥ 1 lowercase keyword hit in
title+description+location; defaults to `medium`. -/
def categorizeIncident (i : IncidentRow) : Categorization :=
  match firstKeywordMatch (incidentFullText i) keywordRuleEntries with
  | some c => c
  | none =>
    { category := "medium", rules := mediumRules, matchScore := 0,
      reasoning := "Default classification - no specific keywords matched" }

/-- Number of keyword matches a category scores on a text (spec wording:
"count keyword matches from that category's fixed keyword list"). -/
def specKeywordMatchCount (rules : CategoryRules) (fullText : String) : Nat :=
  (matchedKeywords rules fullText).length

/-- Modelled from the spec (§4.3): "for each category in priority order
(critical, high, medium, low) … first category with ≥1 match wins …
default to `medium` if no keywords match."  Used to compare the code's
`categorizeIncident` against the spec's algorithm. -/
def specFirstCategory (fullText : String) : String :=
  (([("critical", criticalRules), ("high", highRules),
     ("medium", mediumRules), ("low", lowRules)].find?
      (fun e => 0 < specKeywordMatchCount e.2 fullText)).map (·.1)).getD "medium"

/-! ## Team views and selection
(`IntelligentAssignmentService` in `src/services/ValidationErrorHandler.js`
and `AutomatedAssignmentService` in `src/unnamed/part_012`) -/

/-- The plain object `getAvailableTeams` returns for each of the manager's
teams.  `geographicZone` models the absent `geographic_zone` key of that
object (always `none`, so the comparison in `applyGeographicRules` with a
zone name is always false). -/
structure AvailTeam where
  id : Nat
  name : String
  isAvailable : Bool
  currentCapacity : Nat
  maxCapacity : Nat
  priorityLevel : Nat
  memberCount : Nat
  utilizationRate : ℚ
  geographicZone : Option String
deriving DecidableEq, Repr

/-- The reconciled capacity `getAvailableTeams` computes for a team:
`team.JobCards?.length` under the include `JobCard where status ≠
'completed'`. -/
def liveCapacity (s : DBState) (teamId : Nat) : Nat :=
  (s.jobCards.filter (fun jc => jc.teamId = teamId && jc.status ≠ "completed")).length

/-- The `memberCount` of the view: members joined with an active user. -/
def liveMemberCount (s : DBState) (teamId : Nat) : Nat :=
  (activeMembersOf s teamId).length

/-- The view object `getAvailableTeams` builds for one team
(`ValidationErrorHandler.js` lines 513–545). -/
def teamView (s : DBState) (now : ℤ) (t : TeamRow) : AvailTeam :=
  let currentCapacity := liveCapacity s t.id
  { id := t.id
    name := t.name
    isAvailable := t.isAvailable && currentCapacity < t.maxCapacity &&
      (match t.availableFrom with | none => true | some af => af ≤ now)
    currentCapacity := currentCapacity
    maxCapacity := t.maxCapacity
    priorityLevel := t.priorityLevel
    memberCount := liveMemberCount s t.id
    utilizationRate := if 0 < t.maxCapacity then
        (currentCapacity : ℚ) / (t.maxCapacity : ℚ) else 0
    geographicZone := none }

/-- `getAvailableTeams(managerId)`: returns the views of the manager's
teams and, as a side effect, reconciles each such team's stored
`current_capacity` (and `last_activity`) when it differs from the live
job-card count. -/
def getAvailableTeams (s : DBState) (managerId : Nat) (now : ℤ) :
    List AvailTeam × DBState :=
  let views := (s.teams.filter (·.managerId = managerId)).map (teamView s now)
  let teams' := s.teams.map (fun t =>
    if t.managerId = managerId && t.currentCapacity ≠ liveCapacity s t.id then
      { t with currentCapacity := liveCapacity s t.id, lastActivity := now }
    else t)
  (views, { s with teams := teams' })

/-- `countPriorityAssignments(teamId, priority)` (`part_012` lines 419–438):
non-completed job cards of the team whose incident has that priority. -/
def countPriorityAssignments (s : DBState) (teamId : Nat) (priority : String) : Nat :=
  ((s.jobCards.filter (fun jc => jc.teamId = teamId && jc.status ≠ "completed")).filter
    (fun jc => match findIncident s jc.incidentId with
      | some i => i.priority = some priority
      | none => false)).length

/-- Maximum of a list of rationals (`Math.max(...)` applied to a nonempty
list; `0` for the empty list, which the callers never hit). -/
def qMax : List ℚ → ℚ
  | [] => 0
  | x :: xs => xs.foldl max x

/-- A team view together with its `score` (`{...team, score}`). -/
structure ScoredTeam where
  team : AvailTeam
  score : ℚ
deriving DecidableEq, Repr

/-- The tier-1 eligibility filter of `selectBestTeam` (lines 563–567). -/
def selectBestTeamEligible (availableTeams : List AvailTeam) : List AvailTeam :=
  availableTeams.filter (fun team =>
    team.isAvailable && team.currentCapacity < team.maxCapacity &&
      0 < team.memberCount)

/-- The tier-2/3 weighted score of one team among the eligible candidates
(capacity 50%, utilization 30%, priority 20%), over `ℚ` in place of JS
floats. -/
def selectBestTeamScore (eligibleTeams : List AvailTeam) (team : AvailTeam) : ℚ :=
  let capacityWeight := fun (t : AvailTeam) => ((t.maxCapacity - t.currentCapacity : ℤ) : ℚ)
  let utilizationWeight := fun (t : AvailTeam) => 1 - t.utilizationRate
  let priorityWeight := fun (t : AvailTeam) => (t.priorityLevel : ℚ)
  capacityWeight team / qMax (eligibleTeams.map capacityWeight) * (5/10) +
    utilizationWeight team / qMax (eligibleTeams.map utilizationWeight) * (3/10) +
    priorityWeight team / qMax (eligibleTeams.map priorityWeight) * (2/10)

/-- The tied top scorers of tier 4: `scoredTeams.filter(t => t.score ===
maxScore)`. -/
def topTeams (scoredTeams : List ScoredTeam) : List ScoredTeam :=
  scoredTeams.filter (fun t => t.score = qMax (scoredTeams.map (·.score)))

/-- The tied top scorers `selectBestTeam` draws from (tiers 1–4 up to the
random pick). -/
def selectBestTeamTop (availableTeams : List AvailTeam) : List ScoredTeam :=
  let eligibleTeams := selectBestTeamEligible availableTeams
  topTeams (eligibleTeams.map
    (fun t => ScoredTeam.mk t (selectBestTeamScore eligibleTeams t)))

/-- `selectBestTeam(availableTeams, incident)` (lines 560–607).  The random
draw `Math.random()` is the parameter `rand ∈ [0,1)`: the pick is
`topTeams[Math.floor(rand * topTeams.length)]`.  Returns `none` exactly
when the function throws (`No eligible teams available for assignment`). -/
def selectBestTeam (availableTeams : List AvailTeam) (rand : ℚ) :
    Option ScoredTeam :=
  if (selectBestTeamEligible availableTeams).isEmpty then none
  else
    let top := selectBestTeamTop availableTeams
    top[(⌊rand * top.length⌋).toNat]?

/-! ### Rule-based selection (`AutomatedAssignmentService`) -/

/-- One zone of `assignmentRules.geographic`. -/
structure GeoZone where
  zone : String
  areas : List String
  teamPreference : String
deriving DecidableEq, Repr

/-- `assignmentRules.geographic`, in insertion order. -/
def geographicZones : List GeoZone :=
  [⟨"north_zone", ["northern suburbs", "north end", "uptown"], "north_team"⟩,
   ⟨"south_zone", ["southern suburbs", "south end", "downtown"], "south_team"⟩,
   ⟨"central_zone", ["central", "midtown", "business district"], "central_team"⟩]

/-- The result of `applyGeographicRules` / `applyTimeBasedRules`: a list of
preferred teams and a multiplicative boost factor. -/
structure RulePreference where
  preferredTeams : List AvailTeam
  boostFactor : ℚ
deriving DecidableEq, Repr

/-- The loop body of `applyGeographicRules`: first zone with an area
matched in the (lowercased) location whose preferred-team filter is
nonempty. -/
def geoZoneMatch (locationLower : String) (availableTeams : List AvailTeam) :
    List GeoZone → Option RulePreference
  | [] => none
  | z :: rest =>
    let matchedArea := z.areas.find? (fun area => strIncludes locationLower (jsToLower area))
    let preferredTeams := availableTeams.filter (fun team =>
      strIncludes (jsToLower team.name) (jsToLower z.teamPreference) ||
        team.geographicZone = some z.zone)
    if matchedArea.isSome && !preferredTeams.isEmpty then
      some ⟨preferredTeams, 13/10⟩
    else
      geoZoneMatch locationLower availableTeams rest

/-- `applyGeographicRules(incident, availableTeams)` (`part_012`
lines 175–210): boost 1.3 on a zone hit, otherwise all teams and boost 1. -/
def applyGeographicRules (location : String) (availableTeams : List AvailTeam) :
    RulePreference :=
  (geoZoneMatch (jsToLower location) availableTeams geographicZones).getD
    ⟨availableTeams, 1⟩

/-- `assignmentRules.time_based` preferred-team name fragments. -/
def weekendPreferredTeams : List String := ["emergency_team", "minimal_staff_team"]

/-- Business-hours preferred-team name fragments. -/
def businessHoursPreferredTeams : List String := ["day_shift_team", "standard_team"]

/-- After-hours preferred-team name fragments. -/
def afterHoursPreferredTeams : List String := ["emergency_team", "on_call_team"]

/-- Teams whose (lowercased) name contains one of the preferred fragments. -/
def teamsMatchingPreference (prefs : List String) (availableTeams : List AvailTeam) :
    List AvailTeam :=
  availableTeams.filter (fun team =>
    prefs.any (fun preferred => strIncludes (jsToLower team.name) (jsToLower preferred)))

/-- `applyTimeBasedRules(incidentTime, availableTeams)` (`part_012`
lines 218–265).  The clock decomposition of `new Date(incident.created_at)`
is taken as parameters `hour` (0–23) and `dayOfWeek` (0 = Sunday). -/
def applyTimeBasedRules (hour dayOfWeek : Nat) (availableTeams : List AvailTeam) :
    RulePreference :=
  if dayOfWeek = 0 || dayOfWeek = 6 then
    let weekendTeams := teamsMatchingPreference weekendPreferredTeams availableTeams
    if weekendTeams.isEmpty then ⟨availableTeams, 1⟩ else ⟨weekendTeams, 12/10⟩
  else if 8 ≤ hour && hour < 17 then
    let businessTeams := teamsMatchingPreference businessHoursPreferredTeams availableTeams
    if businessTeams.isEmpty then ⟨availableTeams, 1⟩ else ⟨businessTeams, 11/10⟩
  else
    let afterHoursTeams := teamsMatchingPreference afterHoursPreferredTeams availableTeams
    if afterHoursTeams.isEmpty then ⟨availableTeams, 1⟩ else ⟨afterHoursTeams, 115/100⟩

/-- `extractTeamCapabilities(team)` (`part_012` lines 391–411), inferred
from the team name. -/
def extractTeamCapabilities (team : AvailTeam) : List String :=
  let teamName := jsToLower team.name
  ["standard_response"] ++
    (if strIncludes teamName "emergency" || strIncludes teamName "urgent" then
      ["emergency_response"] else []) ++
    (if strIncludes teamName "heavy" || strIncludes teamName "equipment" then
      ["heavy_equipment"] else []) ++
    (if strIncludes teamName "maintenance" then ["maintenance"] else [])

/-- `assignmentRules.team_capabilities[cap].priority_boost`. -/
def capabilityPriorityBoost (cap : String) : Option ℚ :=
  if cap = "emergency_response" then some (15/10)
  else if cap = "heavy_equipment" then some (12/10)
  else if cap = "standard_response" then some 1
  else if cap = "maintenance" then some (8/10)
  else none

/-- The `ruleBonus` accumulated for one team in `selectBestTeamWithRules`
(lines 317–348): geographic boost, time boost, 1.2 on a capability match,
then each required capability's `priority_boost`. -/
def ruleBonusFor (geo time : RulePreference) (categoryCapabilities : List String)
    (team : AvailTeam) : ℚ :=
  let b1 : ℚ := if geo.preferredTeams.contains team then geo.boostFactor else 1
  let b2 : ℚ := if time.preferredTeams.contains team then b1 * time.boostFactor else b1
  let teamCapabilities := extractTeamCapabilities team
  let capabilityMatch := categoryCapabilities.any (fun cap => teamCapabilities.contains cap)
  let b3 : ℚ := if capabilityMatch then b2 * (12/10) else b2
  categoryCapabilities.foldl (fun b cap =>
    match capabilityPriorityBoost cap with
    | some boost => if teamCapabilities.contains cap then b * boost else b
    | none => b) b3

/-- The `finalScore` of one team in `selectBestTeamWithRules`
(lines 351–356): 0.3·normalized capacity + 0.3·utilization +
0.2·(priority/5) + 0.2·(ruleBonus−1). -/
def finalScoreFor (eligibleTeams : List AvailTeam) (geo time : RulePreference)
    (categoryCapabilities : List String) (team : AvailTeam) : ℚ :=
  let capacityScore := ((team.maxCapacity - team.currentCapacity : ℤ) : ℚ)
  let utilizationScore : ℚ :=
    1 - (team.currentCapacity : ℚ) / (team.maxCapacity : ℚ)
  let priorityScore := (team.priorityLevel : ℚ)
  capacityScore /
      qMax (eligibleTeams.map (fun t => ((t.maxCapacity - t.currentCapacity : ℤ) : ℚ)))
      * (3/10) +
    utilizationScore * (3/10) + priorityScore / 5 * (2/10) +
    (ruleBonusFor geo time categoryCapabilities team - 1) * (2/10)

/-- The reducer body `current.finalScore > best.finalScore ? current :
best`: strict comparison, so the earlier element wins every tie. -/
def pickBest (best current : ScoredTeam) : ScoredTeam :=
  if best.score < current.score then current else best

/-- `scoredTeams.reduce((best, current) => current.finalScore >
best.finalScore ? current : best)`: the **first** team attaining the
maximal score wins every tie. -/
def reduceBestByScore : List ScoredTeam → Option ScoredTeam
  | [] => none
  | x :: xs => some (xs.foldl pickBest x)

/-- The strict eligibility filter of `selectBestTeamWithRules`
(lines 288–297): availability, spare capacity, members, and the
category's `max_assignments_per_team` cap. -/
def rulesEligibleStrict (s : DBState) (cat : Categorization)
    (availableTeams : List AvailTeam) : List AvailTeam :=
  availableTeams.filter (fun team =>
    team.isAvailable && team.currentCapacity < team.maxCapacity &&
      team.memberCount ≠ 0 &&
      countPriorityAssignments s team.id cat.category < cat.rules.maxAssignmentsPerTeam)

/-- The relaxed fallback filter (lines 300–304). -/
def rulesEligibleRelaxed (availableTeams : List AvailTeam) : List AvailTeam :=
  availableTeams.filter (fun team =>
    team.isAvailable && team.currentCapacity < team.maxCapacity &&
      0 < team.memberCount)

/-- The candidate list of `selectBestTeamWithRules`: the strict filter,
relaxed when it leaves nothing (lines 288–304). -/
def rulesEligible (s : DBState) (cat : Categorization)
    (availableTeams : List AvailTeam) : List AvailTeam :=
  let strict := rulesEligibleStrict s cat availableTeams
  if strict.isEmpty then rulesEligibleRelaxed availableTeams else strict

/-- The `scoredTeams` array of `selectBestTeamWithRules` (lines 311–372). -/
def rulesScoredTeams (s : DBState) (availableTeams : List AvailTeam)
    (location : String) (hour dayOfWeek : Nat) (cat : Categorization) :
    List ScoredTeam :=
  (rulesEligible s cat availableTeams).map (fun team =>
    ScoredTeam.mk team
      (finalScoreFor (rulesEligible s cat availableTeams)
        (applyGeographicRules location availableTeams)
        (applyTimeBasedRules hour dayOfWeek availableTeams)
        cat.rules.requiredTeamCapabilities team))

/-- `selectBestTeamWithRules(availableTeams, incident, categorization)`
(`part_012` lines 274–384).  `hour`/`dayOfWeek` stand for the clock fields
of `new Date(incident.created_at)`.  Returns `none` exactly when the
function throws (`No eligible teams available for assignment under current
rules`). -/
def selectBestTeamWithRules (s : DBState) (availableTeams : List AvailTeam)
    (location : String) (hour dayOfWeek : Nat) (cat : Categorization) :
    Option ScoredTeam :=
  if (rulesEligible s cat availableTeams).isEmpty then none
  else reduceBestByScore (rulesScoredTeams s availableTeams location hour dayOfWeek cat)

/-! ## The single-incident assignment operation
(`assignIncidentWithRules`, `part_012` lines 592–692)

The operation is a sequence of awaited ORM writes with **no transaction**:
a write that throws propagates out of the `try` (the `catch` only logs and
rethrows), leaving every earlier write in place.  Failure of an individual
write is modelled by the oracle `fails : WriteStep → Bool`. -/

/-- The individual ORM writes of `assignIncidentWithRules`, in execution
order. -/
inductive WriteStep
  | createJobCard
  | updateTeamCapacity
  | createWorkerProgress (idx : Nat)
  | updateIncident
  | createActivityLog
deriving DecidableEq, Repr

/-- Outcome of the assignment operation: the error message of the thrown
exception (if any) together with the database state left behind. -/
structure AssignResult where
  error : Option String
  state : DBState
deriving DecidableEq, Repr

/-- A fresh primary key for `JobCard.create`. -/
def freshJobCardId (s : DBState) : Nat :=
  (s.jobCards.map (·.id)).foldl max 0 + 1

/-- The `WorkerProgress.create` loop over the team's active members
(lines 643–649); stops at the first failing create, keeping the rows
already inserted. -/
def runProgressCreates (fails : WriteStep → Bool) (jobCardId : Nat) :
    List (Nat × TeamMemberRow) → DBState → Option String × DBState
  | [], s => (none, s)
  | (idx, m) :: rest, s =>
    if fails (.createWorkerProgress idx) then
      (some "WorkerProgress.create failed", s)
    else
      runProgressCreates fails jobCardId rest
        { s with workerProgress :=
            s.workerProgress ++ [⟨jobCardId, m.userId, "pending"⟩] }

/-- The state after `JobCard.create` (lines 617–623): the new card
appended. -/
def assignJobCardState (s₁ : DBState) (incidentId : Nat)
    (selectedTeam : ScoredTeam) (now : ℤ) : DBState :=
  { s₁ with jobCards := s₁.jobCards ++
    [⟨freshJobCardId s₁, incidentId, selectedTeam.team.id, none, "not_started",
      now, none, none⟩] }

/-- The state after the `Team.update` capacity bump (lines 626–632):
`current_capacity := selectedTeam.currentCapacity + 1` (the view's value,
read before the write). -/
def assignCapacityState (s₁ : DBState) (incidentId : Nat)
    (selectedTeam : ScoredTeam) (now : ℤ) : DBState :=
  updateTeamRow (assignJobCardState s₁ incidentId selectedTeam now)
    selectedTeam.team.id (fun t =>
      { t with currentCapacity := selectedTeam.team.currentCapacity + 1,
               lastActivity := now })

/-- The state after `incident.update` (lines 652–658): status
`In Progress`, assignment fields and categorization set. -/
def assignIncidentState (s₄ : DBState) (incidentId : Nat)
    (selectedTeam : ScoredTeam) (categorization : Categorization) (now : ℤ) :
    DBState :=
  updateIncidentRow s₄ incidentId (fun i =>
    { i with status := "In Progress",
             assignedTeamId := some selectedTeam.team.id,
             assignedAt := some now,
             priority := some categorization.category,
             categoryReasoning := some categorization.reasoning })

/-- The state after `ActivityLog.create` (lines 661–677). -/
def assignLogState (s₅ : DBState) (managerId jobCardId : Nat)
    (incident : IncidentRow) (selectedTeam : ScoredTeam) : DBState :=
  { s₅ with activityLogs := s₅.activityLogs ++
    [⟨some managerId,
      "Rule-based automated assignment: team " ++ selectedTeam.team.name ++
        " to incident \x22" ++ incident.title ++ "\x22",
      "job_cards", some jobCardId⟩] }

/-- The write phase of `assignIncidentWithRules` (lines 616–677), entered
once validation and team selection succeeded: create the job card, bump
the team's capacity, create one pending worker-progress row per active
member, update the incident, and append the audit log — each a separate
awaited ORM call with no surrounding transaction. -/
def performAssignmentWrites (s₁ : DBState) (incidentId managerId : Nat)
    (now : ℤ) (incident : IncidentRow) (categorization : Categorization)
    (selectedTeam : ScoredTeam) (fails : WriteStep → Bool) : AssignResult :=
  if fails .createJobCard then ⟨some "JobCard.create failed", s₁⟩ else
  if fails .updateTeamCapacity then
    ⟨some "Team.update failed", assignJobCardState s₁ incidentId selectedTeam now⟩
  else
  match runProgressCreates fails (freshJobCardId s₁)
      (activeMembersOf (assignCapacityState s₁ incidentId selectedTeam now)
        selectedTeam.team.id).enum
      (assignCapacityState s₁ incidentId selectedTeam now) with
  | (some e, s₄) => ⟨some e, s₄⟩
  | (none, s₄) =>
    if fails .updateIncident then ⟨some "incident.update failed", s₄⟩ else
    if fails .createActivityLog then
      ⟨some "ActivityLog.create failed",
        assignIncidentState s₄ incidentId selectedTeam categorization now⟩
    else
      ⟨none, assignLogState
        (assignIncidentState s₄ incidentId selectedTeam categorization now)
        managerId (freshJobCardId s₁) incident selectedTeam⟩

/-- `assignIncidentWithRules(incidentId, managerId)`.  `now` is the wall
clock; `hour`/`dayOfWeek` are the clock fields of the incident's
`created_at` used by the time-based rules. -/
def assignIncidentWithRules (s : DBState) (incidentId managerId : Nat)
    (now : ℤ) (hour dayOfWeek : Nat) (fails : WriteStep → Bool) : AssignResult :=
  match findIncident s incidentId with
  | none => ⟨some "Incident not found", s⟩
  | some incident =>
    if incident.status ≠ "verified" then
      ⟨some "Incident is not ready for assignment", s⟩
    else
      let categorization := categorizeIncident incident
      let s₁ := (getAvailableTeams s managerId now).2
      let availableTeams := (getAvailableTeams s managerId now).1
      match selectBestTeamWithRules s₁ availableTeams incident.location hour dayOfWeek
          categorization with
      | none =>
        ⟨some "No eligible teams available for assignment under current rules", s₁⟩
      | some selectedTeam =>
        performAssignmentWrites s₁ incidentId managerId now incident categorization
          selectedTeam fails

/-! ## The full status-change validation pipeline
(`validateIncidentStatusChange`, `StatusValidationService.js` lines 102–217)

Failure results are represented by the failing check's error `code` (for
checks that set one) or its message. -/

/-- Result of `validateTeamAssignment` (lines 225–386): the failing code,
or the resolved team and job card. -/
structure TeamValidationResult where
  valid : Bool
  code : Option String
  team : Option TeamRow
  jobCard : Option JobCardRow
deriving DecidableEq, Repr

/-- `validateTeamAssignment(incident, targetStatus)`. -/
def validateTeamAssignment (s : DBState) (incident : IncidentRow)
    (targetStatus : String) : TeamValidationResult :=
  match incident.assignedTeamId with
  | none => ⟨false, some "TEAM_ASSIGNMENT_REQUIRED", none, none⟩
  | some teamId =>
    match findTeam s teamId with
    | none => ⟨false, some "TEAM_NOT_FOUND", none, none⟩
    | some team =>
      if !team.isAvailable then
        ⟨false, some "TEAM_UNAVAILABLE", none, none⟩
      else if team.maxCapacity ≤ team.currentCapacity then
        ⟨false, some "TEAM_AT_CAPACITY", none, none⟩
      else if (activeMembersOf s team.id).isEmpty then
        ⟨false, some "TEAM_NO_ACTIVE_MEMBERS", none, none⟩
      else
        match (jobCardsOf s incident.id).head? with
        | none => ⟨false, some "JOB_CARD_REQUIRED", none, none⟩
        | some jobCard =>
          if jobCard.teamId ≠ teamId then
            ⟨false, some "JOB_CARD_TEAM_MISMATCH", none, none⟩
          else if (targetStatus = "In Progress" || targetStatus = "Completed") &&
              !(match findUser s team.managerId with
                | some owner => owner.status = "active"
                | none => false) then
            ⟨false, some "TEAM_MANAGER_INVALID", none, none⟩
          else
            ⟨true, none, some team, some jobCard⟩

/-- `validateManagerAuthorization(incident, userId, userRole)`
(lines 415–436). -/
def validateManagerAuthorization (s : DBState) (incident : IncidentRow)
    (userId : Nat) (userRole : String) : ValidationResult :=
  if !(userRole = "manager" || userRole = "admin") then
    ⟨false, some "Only managers and admins can modify incident status to this level"⟩
  else if userRole = "manager" then
    match (jobCardsOf s incident.id).head? with
    | some jobCard =>
      match findTeam s jobCard.teamId with
      | some team =>
        if team.managerId ≠ userId then
          ⟨false, some "Manager can only modify incidents assigned to their teams"⟩
        else ⟨true, none⟩
      | none => ⟨true, none⟩
    | none => ⟨true, none⟩
  else ⟨true, none⟩

/-- `validateBusinessRules(incident, newStatus, userId)` (lines 445–493).
The hour comparison `(now − assigned_at)/(1000·60·60) < 1` is over `ℚ`;
when `assigned_at` is null the JS `NaN` comparison is false, i.e. the time
rule passes. -/
def validateBusinessRules (incident : IncidentRow) (newStatus : String)
    (now : ℤ) : ValidationResult :=
  if incident.status = "Completed" && newStatus ≠ "Completed" then
    ⟨false, some "Cannot change status of a completed incident"⟩
  else if incident.status = "Completed" && newStatus = "Cancelled" then
    ⟨false, some "Cannot cancel a completed incident"⟩
  else if newStatus = "In Progress" && incident.status ≠ "verified" then
    ⟨false, some "Incident must be verified before it can be marked as In Progress"⟩
  else if newStatus = "Completed" then
    if incident.status ≠ "In Progress" then
      ⟨false, some "Incident must be In Progress before it can be Completed"⟩
    else
      match incident.assignedAt with
      | some timeAssigned =>
        if ((now - timeAssigned : ℤ) : ℚ) / (1000 * 60 * 60) < 1 then
          ⟨false, some "Incident must be assigned for at least 1 hour before completion"⟩
        else ⟨true, none⟩
      | none => ⟨true, none⟩
  else ⟨true, none⟩

/-- The minimum-dwell-time check of
`validateAutomatedProgressionRequirements` (lines 666–672): when a minimum
is configured and `assigned_at` is set, the elapsed minutes
`(now − assigned_at)/(1000·60)` (over `ℚ`) must reach the minimum, else
one error string is contributed. -/
def minimumTimeChunk (minimum : Nat) (assignedAt : Option ℤ) (now : ℤ) : List String :=
  if 0 < minimum then
    match assignedAt with
    | some t =>
      if ((now - t : ℤ) : ℚ) / (1000 * 60) < (minimum : ℚ) then
        ["Minimum " ++ toString minimum ++
          " minutes must pass since assignment before proceeding to this status"]
      else []
    | none => []
  else []

/-- The error strings accumulated by
`validateAutomatedProgressionRequirements` (lines 639–691); empty ⇔ valid.
The minute comparison `(now − assigned_at)/(1000·60) < minimum` is over
`ℚ`. -/
def automatedProgressionErrors (s : DBState) (incident : IncidentRow)
    (newStatus : String) (now : ℤ) : List String :=
  match automatedProgressionRequirements newStatus with
  | none => []
  | some requirements =>
    (if requirements.requiresTeamAssignment && incident.assignedTeamId.isNone then
      ["Team assignment is required before proceeding to this status"] else []) ++
    (if requirements.requiresJobCard && (jobCardsOf s incident.id).isEmpty then
      ["Job card is required for this status progression"] else []) ++
    (if requirements.requiresTeamActiveMembers && incident.assignedTeamId.isSome then
      match (jobCardsOf s incident.id).head? with
      | some jobCard =>
        match findTeam s jobCard.teamId with
        | some team =>
          if (membersOf s team.id).isEmpty then
            ["Team must have active members for this status progression"] else []
        | none => []
      | none => []
    else []) ++
    minimumTimeChunk requirements.minimumTimeSinceAssignment incident.assignedAt now ++
    (if requirements.requiresProperStatusProgression &&
        (newStatus = "Completed" && incident.status ≠ "In Progress") then
      ["Incident must be In Progress before it can be marked as Completed"] else [])

/-- The error strings accumulated by `validateDataIntegrity`
(lines 699–744); empty ⇔ valid. -/
def dataIntegrityErrors (s : DBState) (incident : IncidentRow)
    (newStatus : String) : List String :=
  (if incident.status = "Completed" && newStatus ≠ "Completed" then
    ["Completed incidents cannot have their status changed"] else []) ++
  (if incident.assignedTeamId.isSome && newStatus = "verified" then
    ["Cannot revert to verified status while team is assigned"] else []) ++
  (match (jobCardsOf s incident.id).head? with
   | some jobCard =>
     if jobCard.status = "completed" && newStatus ≠ "Completed" then
       ["Cannot change status of incident with completed job card"] else []
   | none => []) ++
  (if requiresTeamAssignment newStatus && incident.assignedTeamId.isSome then
    (if incident.assignedAt.isNone then
      ["Team assignment timestamp is missing"] else []) ++
    (if (jobCardsOf s incident.id).isEmpty ||
        ((jobCardsOf s incident.id).head?.map (·.teamId)) ≠ incident.assignedTeamId then
      ["Team assignment integrity check failed"] else [])
  else [])

/-- Result of the full `validateIncidentStatusChange` pipeline.  On
success it carries the loaded incident (the JS success object exposes
`incident` but no `team`/`jobCard` field, so the route's
`applyStatusChange` sees `jobCard === undefined`). -/
structure StatusChangeValidation where
  valid : Bool
  stage : Option String
  incident : Option IncidentRow
deriving DecidableEq, Repr

/-- `validateIncidentStatusChange(incidentId, newStatus, userId, userRole)`:
the six validation stages in order, failing fast. -/
def validateIncidentStatusChange (s : DBState) (incidentId : Nat)
    (newStatus : String) (userId : Nat) (userRole : String) (now : ℤ) :
    StatusChangeValidation :=
  match findIncident s incidentId with
  | none => ⟨false, some "incident_lookup", none⟩
  | some incident =>
    if !(validateStatusTransition incident.status newStatus).valid then
      ⟨false, some "status_transition", none⟩
    else if requiresTeamAssignment newStatus &&
        !(validateTeamAssignment s incident newStatus).valid then
      ⟨false, some "team_assignment_validation", none⟩
    else if requiresManagerAuthorization newStatus &&
        !(validateManagerAuthorization s incident userId userRole).valid then
      ⟨false, some "manager_authorization", none⟩
    else if !(validateBusinessRules incident newStatus now).valid then
      ⟨false, some "business_rules", none⟩
    else if !(automatedProgressionErrors s incident newStatus now).isEmpty then
      ⟨false, some "automated_requirements", none⟩
    else if !(dataIntegrityErrors s incident newStatus).isEmpty then
      ⟨false, some "data_integrity", none⟩
    else
      ⟨true, none, some incident⟩

/-- `applyStatusChange(incidentId, newStatus, validationResult, userId,
reason)` (lines 504–564): updates the incident's status, updates the job
card only when the validation result carried one (in the PATCH
`/incidents/:incidentId/status` flow it does not), and appends an audit
log row.  The other incident columns — in particular `assigned_team_id` —
are left untouched. -/
def applyStatusChange (s : DBState) (incidentId : Nat) (newStatus : String)
    (validation : StatusChangeValidation) (jobCard : Option JobCardRow)
    (userId : Nat) (now : ℤ) : DBState :=
  match validation.incident with
  | none => s
  | some incident =>
    let s₁ := updateIncidentRow s incident.id (fun i => { i with status := newStatus })
    let s₂ : DBState := match jobCard with
      | none => s₁
      | some jc =>
        { s₁ with jobCards := s₁.jobCards.map (fun c =>
            if c.id = jc.id then
              { c with status := mapIncidentStatusToJobCardStatus newStatus,
                       startedAt := if newStatus = "In Progress" && jc.startedAt.isNone
                         then some now else c.startedAt,
                       completedAt := if newStatus = "Completed" && jc.completedAt.isNone
                         then some now else c.completedAt }
            else c) }
    { s₂ with activityLogs := s₂.activityLogs ++
      [⟨some userId,
        "Changed incident status from \x27" ++ incident.status ++ "\x27 to \x27" ++
          newStatus ++ "\x27",
        "incidents", some incidentId⟩] }

/-! ## The revert route
(`POST /automation/revert/:incidentId`, `src/routes/manager.js`
lines 976–1037, behind `verifyIncidentAssignmentAccess`) -/

/-- The job cards the middleware's include attaches to the incident:
those whose team belongs to the requesting manager. -/
def ownedJobCardsOf (s : DBState) (managerId incidentId : Nat) : List JobCardRow :=
  (jobCardsOf s incidentId).filter (fun jc =>
    match findTeam s jc.teamId with
    | some t => t.managerId = managerId
    | none => false)

/-- Outcome of the revert route: HTTP status, success flag, resulting
database state. -/
structure RevertOutcome where
  httpStatus : Nat
  success : Bool
  state : DBState
deriving DecidableEq, Repr

/-- The revert operation.  Note what it does **not** do: it never touches
`teams` (no capacity decrement) and never consults the status machine (any
current status is accepted as long as a job card exists). -/
def revertAssignment (s : DBState) (incidentId managerId : Nat) : RevertOutcome :=
  match findIncident s incidentId with
  | none => ⟨404, false, s⟩
  | some incident =>
    match (ownedJobCardsOf s managerId incidentId).head? with
    | none => ⟨400, false, s⟩
    | some jobCard =>
      let s₁ := { s with jobCards := s.jobCards.filter (·.id ≠ jobCard.id) }
      let s₂ := updateIncidentRow s₁ incident.id (fun i =>
        { i with status := "verified", assignedTeamId := none, assignedAt := none,
                 priority := none, categoryReasoning := none })
      ⟨200, true, { s₂ with activityLogs := s₂.activityLogs ++
        [⟨some managerId,
          "Reverted automated assignment for incident \x22" ++ incident.title ++ "\x22",
          "job_cards", some jobCard.id⟩] }⟩

/-! ## The scheduler (`src/services/AutomatedSchedulingService.js`)

The constructor (line 15) initialises
`this.assignmentHistory = new Set()`, but every use of the history calls
the **`Map`** API (`.set(id, ts)`, `.get(id)`).  A JavaScript `Set` has no
`set`/`get` methods, so those calls throw `TypeError`.  The history value
is embedded as either shape, with the method calls returning
`Except Unit` (`error` = the thrown `TypeError`). -/

/-- The runtime value of `this.assignmentHistory`: the `Set` the
constructor built, or the `Map` the call sites assume. -/
inductive JSHistory
  | jsSet (elems : List Nat)
  | jsMap (entries : List (Nat × ℤ))
deriving DecidableEq, Repr

/-- `new Set()` — the constructor's value (line 15). -/
def schedulerInitialHistory : JSHistory := .jsSet []

/-- `this.assignmentHistory.has(id)` — exists on both shapes. -/
def historyHas (h : JSHistory) (id : Nat) : Bool :=
  match h with
  | .jsSet elems => elems.contains id
  | .jsMap entries => entries.any (·.1 = id)

/-- `this.assignmentHistory.get(id)`: a `Map` lookup; on a `Set` the
property is `undefined` and the call throws `TypeError`. -/
def historyCallGet (h : JSHistory) (id : Nat) : Except Unit (Option ℤ) :=
  match h with
  | .jsSet _ => .error ()
  | .jsMap entries => .ok ((entries.find? (·.1 = id)).map (·.2))

/-- `this.assignmentHistory.set(id, ts)`: a `Map` insert; on a `Set` the
property is `undefined` and the call throws `TypeError`. -/
def historyCallSet (h : JSHistory) (id : Nat) (ts : ℤ) : Except Unit JSHistory :=
  match h with
  | .jsSet _ => .error ()
  | .jsMap entries =>
    .ok (.jsMap ((entries.filter (·.1 ≠ id)) ++ [(id, ts)]))

/-- The cooldown filter of `getUnassignedIncidents` (lines 258–263):
keep an incident unless the history records it within the window.  The
`get` call is only reached when `has` is true (JS `||`
short-circuiting), and throws on a `Set`. -/
def cooldownFilter (h : JSHistory) (threshold : ℤ) :
    List IncidentRow → Except Unit (List IncidentRow)
  | [] => .ok []
  | i :: rest =>
    if !historyHas h i.id then
      (i :: ·) <$> cooldownFilter h threshold rest
    else
      match historyCallGet h i.id with
      | .error e => .error e
      | .ok ts =>
        if (ts.getD 0) < threshold then
          (i :: ·) <$> cooldownFilter h threshold rest
        else
          cooldownFilter h threshold rest

/-- `getUnassignedIncidents(managerId)` (lines 248–264): incidents with
`status: 'verified'` and `assigned_team_id: null`, ordered by `created_at`
ascending, then cooldown-filtered against the history (window
`5 * 60 * 1000` ms). -/
def getUnassignedIncidents (s : DBState) (h : JSHistory) (now : ℤ) :
    Except Unit (List IncidentRow) :=
  let fetched := (s.incidents.filter (fun i =>
    i.status = "verified" && i.assignedTeamId.isNone)).insertionSort
    (fun a b => a.createdAt ≤ b.createdAt)
  cooldownFilter h (now - 5 * 60 * 1000) fetched

/-- Counters accumulated by `processIncidentsByPriority`. -/
structure SchedulerCounters where
  success : Nat
  errors : Nat
deriving DecidableEq, Repr

/-- One iteration of the per-priority processing loop (lines 309–343):
attempt the assignment (or skip it in dry-run mode), then record the
incident in the history.  The whole body is inside `try … catch`, so a
`TypeError` from the recording is caught and counted as an error —
`success++` sits after the recording and is skipped. -/
def processOneIncident (dryRun : Bool)
    (attemptAssign : Nat → DBState → Option String × DBState) (now : ℤ)
    (acc : SchedulerCounters × JSHistory × DBState) (incidentId : Nat) :
    SchedulerCounters × JSHistory × DBState :=
  let (counters, h, s) := acc
  if dryRun then
    match historyCallSet h incidentId now with
    | .error _ => (⟨counters.success, counters.errors + 1⟩, h, s)
    | .ok h' => (⟨counters.success + 1, counters.errors⟩, h', s)
  else
    match attemptAssign incidentId s with
    | (some _, s') => (⟨counters.success, counters.errors + 1⟩, h, s')
    | (none, s') =>
      match historyCallSet h incidentId now with
      | .error _ => (⟨counters.success, counters.errors + 1⟩, h, s')
      | .ok h' => (⟨counters.success + 1, counters.errors⟩, h', s')

/-- `config.priorityOrder` (line 29). -/
def priorityOrder : List String := ["critical", "high", "medium", "low"]

/-- `processIncidentsByPriority(incidents, managerId)` (lines 272–347):
group the incidents by categorizer output, then for each priority in
`critical → high → medium → low` order process at most
`maxConcurrentAssignments` of them. -/
def processIncidentsByPriority (dryRun : Bool)
    (attemptAssign : Nat → DBState → Option String × DBState)
    (maxConcurrentAssignments : Nat) (now : ℤ) (incidents : List IncidentRow)
    (h : JSHistory) (s : DBState) : SchedulerCounters × JSHistory × DBState :=
  priorityOrder.foldl (fun acc priority =>
    let group := incidents.filter (fun i => (categorizeIncident i).category = priority)
    (group.take (min group.length maxConcurrentAssignments)).foldl
      (fun acc' i => processOneIncident dryRun attemptAssign now acc' i.id) acc)
    (⟨0, 0⟩, h, s)

/-! ## Specification-side predicates -/

/-- The data-model invariant of spec §3: `assigned_team_id` non-null ⇔
status ∈ {Assigned, InProgress, Completed}.  The right-hand side is
exactly the code's `statusesRequiringTeamAssignment` set. -/
def specAssignmentInvariant (i : IncidentRow) : Bool :=
  i.assignedTeamId.isSome = requiresTeamAssignment i.status

/-- The weaker invariant the validated status change does maintain:
a status requiring a team implies a team is present, and `verified`
implies no team.  (The Cancelled half of the full invariant is the part
the code breaks.) -/
def weakAssignmentInvariant (i : IncidentRow) : Bool :=
  (!requiresTeamAssignment i.status || i.assignedTeamId.isSome) &&
    (!(i.status = "verified") || i.assignedTeamId.isNone)

/-- The dwell-time error string of
`validateAutomatedProgressionRequirements` for `Completed`. -/
def dwellTimeError : String :=
  "Minimum 60 minutes must pass since assignment before proceeding to this status"

/-! ## Concrete scenarios used by counterexamples and witnesses -/

/-- An incident in `In Progress` with team 7 assigned. -/
def cInProgressIncident : IncidentRow :=
  ⟨1, "t", "d", "loc", "In Progress", some 7, some 0, none, none, 0⟩

/-- Team 7: available, capacity 1/5, owned by manager 9. -/
def cTeam7 : TeamRow := ⟨7, "alpha", 9, true, 1, 5, 3, 0, none⟩

/-- The job card binding incident 1 to team 7. -/
def cJobCard17 : JobCardRow := ⟨1, 1, 7, none, "in_progress", 0, none, none⟩

/-- State for the Cancelled-keeps-team counterexample: incident 1 is
`In Progress` with team 7 assigned, manager 9 owns team 7, one active
member. -/
def cCancelState : DBState :=
  ⟨[cInProgressIncident], [cTeam7], [cJobCard17], [⟨7, 20⟩],
   [⟨9, "manager", "active"⟩, ⟨20, "worker", "active"⟩], [], []⟩

/-- A `Completed` incident still assigned to team 4. -/
def cCompletedIncident : IncidentRow :=
  ⟨1, "t", "d", "loc", "Completed", some 4, some 0, some "high", some "r", 0⟩

/-- Team 4 with stored capacity 3/5, owned by manager 9. -/
def cTeam4 : TeamRow := ⟨4, "beta", 9, true, 3, 5, 2, 0, none⟩

/-- The (completed) job card binding incident 1 to team 4. -/
def cJobCard14 : JobCardRow := ⟨2, 1, 4, none, "completed", 0, none, none⟩

/-- State for the revert counterexample: a `Completed`, still-assigned
incident. -/
def cRevertState : DBState :=
  ⟨[cCompletedIncident], [cTeam4], [cJobCard14], [], [⟨9, "manager", "active"⟩], [], []⟩

/-- A fresh `verified`, unassigned incident. -/
def cVerifiedIncident : IncidentRow :=
  ⟨1, "t", "d", "loc", "verified", none, none, none, none, 0⟩

/-- Team 7 with stored capacity 0/5. -/
def cTeam7Fresh : TeamRow := ⟨7, "alpha", 9, true, 0, 5, 3, 0, none⟩

/-- State for the assignment scenarios: one verified unassigned incident,
one available team of manager 9 with one active member. -/
def cAssignState : DBState :=
  ⟨[cVerifiedIncident], [cTeam7Fresh], [], [⟨7, 20⟩],
   [⟨9, "manager", "active"⟩, ⟨20, "worker", "active"⟩], [], []⟩

/-- A write-failure oracle failing exactly the team-capacity update. -/
def failCapacityUpdate : WriteStep → Bool :=
  fun st => st = .updateTeamCapacity

/-- An oracle under which every write succeeds. -/
def noWriteFailure : WriteStep → Bool := fun _ => false

/-- Two structurally identical team views differing only in `id` (and so
scoring identically). -/
def cTieTeamA : AvailTeam := ⟨1, "alpha", true, 0, 4, 3, 1, 0, none⟩

/-- The second of the two tied team views. -/
def cTieTeamB : AvailTeam := ⟨2, "alpha", true, 0, 4, 3, 1, 0, none⟩

/-- An empty database (no job cards, so the per-category caps are free). -/
def cEmptyState : DBState := ⟨[], [], [], [], [], [], []⟩

/-- The categorization of an all-blank incident (default `medium`). -/
def cMediumCat : Categorization :=
  categorizeIncident ⟨1, "", "", "", "verified", none, none, none, none, 0⟩

/-- The spec §8 scenario incident whose description is
"emergency sewage overflow". -/
def cEmergencyIncident : IncidentRow :=
  ⟨1, "", "emergency sewage overflow", "", "verified", none, none, none, none, 0⟩

/-- An `In Progress` incident assigned at epoch 0 (for the dwell-time
scenarios). -/
def cDwellIncident : IncidentRow :=
  ⟨1, "t", "d", "loc", "In Progress", some 7, some 0, none, none, 0⟩

/-- A single verified unassigned incident for the scheduler scenario. -/
def cSchedIncident : IncidentRow :=
  ⟨1, "x", "", "", "verified", none, none, none, none, 0⟩

/-- State for the scheduler scenario. -/
def cSchedState : DBState := ⟨[cSchedIncident], [], [], [], [], [], []⟩

/-! ## Helper lemmas -/

theorem le_foldl_max (xs : List ℚ) (a : ℚ) : a ≤ xs.foldl max a := by
  induction xs generalizing a with
  | nil => exact le_rfl
  | cons b bs ih => exact le_trans (le_max_left a b) (ih (max a b))

theorem mem_le_foldl_max (xs : List ℚ) (a x : ℚ) (hx : x ∈ xs) :
    x ≤ xs.foldl max a := by
  induction xs generalizing a with
  | nil => cases hx
  | cons b bs ih =>
    rcases List.mem_cons.mp hx with h | h
    · exact le_trans (le_of_eq h)
        (le_trans (le_max_right a b) (le_foldl_max bs (max a b)))
    · exact ih (max a b) h

theorem qMax_le_of_mem {l : List ℚ} {x : ℚ} (hx : x ∈ l) : x ≤ qMax l := by
  cases l with
  | nil => cases hx
  | cons a xs =>
    rcases List.mem_cons.mp hx with h | h
    · exact h ▸ le_foldl_max xs a
    · exact mem_le_foldl_max xs a x h

theorem foldl_max_mem (xs : List ℚ) (a : ℚ) : xs.foldl max a ∈ a :: xs := by
  induction xs generalizing a with
  | nil => exact List.mem_singleton.mpr rfl
  | cons b bs ih =>
    rcases List.mem_cons.mp (ih (max a b)) with h | h
    · rcases max_choice a b with hm | hm
      · exact List.mem_cons.mpr (Or.inl (h.trans hm))
      · exact List.mem_cons.mpr (Or.inr (List.mem_cons.mpr (Or.inl (h.trans hm))))
    · exact List.mem_cons.mpr (Or.inr (List.mem_cons.mpr (Or.inr h)))

theorem qMax_mem {l : List ℚ} (h : l ≠ []) : qMax l ∈ l := by
  cases l with
  | nil => exact absurd rfl h
  | cons a xs => exact foldl_max_mem xs a

theorem topTeams_sub {l : List ScoredTeam} {x : ScoredTeam} (hx : x ∈ topTeams l) :
    x ∈ l :=
  (List.mem_filter.mp hx).1

theorem topTeams_ne_nil {l : List ScoredTeam} (h : l ≠ []) : topTeams l ≠ [] := by
  have hm : qMax (l.map (·.score)) ∈ l.map (·.score) :=
    qMax_mem (by simpa using h)
  rcases List.mem_map.mp hm with ⟨t, ht, hts⟩
  intro hnil
  have : t ∈ topTeams l := List.mem_filter.mpr ⟨ht, by simp [hts]⟩
  rw [hnil] at this
  cases this

theorem pickBest_cases (x b : ScoredTeam) : pickBest x b = x ∨ pickBest x b = b := by
  unfold pickBest
  by_cases hc : x.score < b.score
  · exact Or.inr (if_pos hc)
  · exact Or.inl (if_neg hc)

theorem le_pickBest_left (x b : ScoredTeam) : x.score ≤ (pickBest x b).score := by
  unfold pickBest
  by_cases hc : x.score < b.score
  · rw [if_pos hc]; exact le_of_lt hc
  · rw [if_neg hc]

theorem le_pickBest_right (x b : ScoredTeam) : b.score ≤ (pickBest x b).score := by
  unfold pickBest
  by_cases hc : x.score < b.score
  · rw [if_pos hc]
  · rw [if_neg hc]; exact le_of_not_lt hc

theorem foldl_best_mem (xs : List ScoredTeam) (x : ScoredTeam) :
    xs.foldl pickBest x ∈ x :: xs := by
  induction xs generalizing x with
  | nil => exact List.mem_singleton.mpr rfl
  | cons b bs ih =>
    show bs.foldl pickBest (pickBest x b) ∈ x :: b :: bs
    rcases List.mem_cons.mp (ih (pickBest x b)) with h | h
    · rw [h]
      rcases pickBest_cases x b with hp | hp <;> rw [hp]
      · exact List.mem_cons.mpr (Or.inl rfl)
      · exact List.mem_cons.mpr (Or.inr (List.mem_cons.mpr (Or.inl rfl)))
    · exact List.mem_cons.mpr (Or.inr (List.mem_cons.mpr (Or.inr h)))

theorem foldl_best_le (xs : List ScoredTeam) (x : ScoredTeam) :
    ∀ y ∈ x :: xs, y.score ≤ (xs.foldl pickBest x).score := by
  induction xs generalizing x with
  | nil =>
    intro y hy
    rw [List.mem_singleton.mp hy]
    exact le_rfl
  | cons b bs ih =>
    intro y hy
    have step := ih (pickBest x b)
    show y.score ≤ (bs.foldl pickBest (pickBest x b)).score
    rcases List.mem_cons.mp hy with h | h
    · exact le_trans (le_of_eq (congrArg (·.score) h))
        (le_trans (le_pickBest_left x b) (step _ (List.mem_cons.mpr (Or.inl rfl))))
    · rcases List.mem_cons.mp h with h | h
      · exact le_trans (le_of_eq (congrArg (·.score) h))
          (le_trans (le_pickBest_right x b) (step _ (List.mem_cons.mpr (Or.inl rfl))))
      · exact step y (List.mem_cons.mpr (Or.inr h))

theorem reduceBest_mem {l : List ScoredTeam} {x : ScoredTeam}
    (h : reduceBestByScore l = some x) : x ∈ l := by
  cases l with
  | nil => cases h
  | cons a xs =>
    have hm := foldl_best_mem xs a
    rwa [show xs.foldl pickBest a = x from Option.some.inj h] at hm

theorem reduceBest_le {l : List ScoredTeam} {x : ScoredTeam}
    (h : reduceBestByScore l = some x) : ∀ y ∈ l, y.score ≤ x.score := by
  cases l with
  | nil => cases h
  | cons a xs =>
    have hm := foldl_best_le xs a
    rwa [show xs.foldl pickBest a = x from Option.some.inj h] at hm

theorem firstKeywordMatch_category (text : String) :
    ∀ entries : List (String × CategoryRules),
      ((firstKeywordMatch text entries).map (·.category)).getD "medium" =
        (((entries.find? (fun e => 0 < specKeywordMatchCount e.2 text)).map (·.1)).getD
          "medium") := by
  intro entries
  induction entries with
  | nil => rfl
  | cons e rest ih =>
    obtain ⟨category, rules⟩ := e
    by_cases h : 0 < (matchedKeywords rules text).length
    · simp [firstKeywordMatch, List.find?, specKeywordMatchCount, h]
    · simp [firstKeywordMatch, List.find?, specKeywordMatchCount, h, ih]

theorem getAvailableTeams_incidents (s : DBState) (managerId : Nat) (now : ℤ) :
    ((getAvailableTeams s managerId now).2).incidents = s.incidents := rfl

theorem updateTeamRow_incidents (s : DBState) (id : Nat) (f : TeamRow → TeamRow) :
    (updateTeamRow s id f).incidents = s.incidents := rfl

theorem updateIncidentRow_incidents (s : DBState) (id : Nat)
    (f : IncidentRow → IncidentRow) :
    (updateIncidentRow s id f).incidents =
      s.incidents.map (fun i => if i.id = id then f i else i) := rfl

theorem runProgressCreates_incidents (fails : WriteStep → Bool) (jcid : Nat) :
    ∀ (l : List (Nat × TeamMemberRow)) (s : DBState),
      ((runProgressCreates fails jcid l s).2).incidents = s.incidents := by
  intro l
  induction l with
  | nil => intro s; rfl
  | cons p rest ih =>
    intro s
    obtain ⟨idx, m⟩ := p
    unfold runProgressCreates
    by_cases hf : fails (.createWorkerProgress idx)
    · rw [if_pos hf]
    · rw [if_neg hf]
      exact ih _

theorem performWrites_incidents {s₁ : DBState} {incidentId managerId : Nat}
    {now : ℤ} {incident : IncidentRow} {cat : Categorization} {st : ScoredTeam}
    {fails : WriteStep → Bool}
    (h : (performAssignmentWrites s₁ incidentId managerId now incident cat st
          fails).error = none) :
    (performAssignmentWrites s₁ incidentId managerId now incident cat st
        fails).state.incidents =
      s₁.incidents.map (fun i => if i.id = incidentId then
        { i with status := "In Progress", assignedTeamId := some st.team.id,
                 assignedAt := some now, priority := some cat.category,
                 categoryReasoning := some cat.reasoning } else i) := by
  unfold performAssignmentWrites at h ⊢
  by_cases h1 : fails WriteStep.createJobCard
  · rw [if_pos h1] at h; cases h
  · rw [if_neg h1] at h ⊢
    by_cases h2 : fails WriteStep.updateTeamCapacity
    · rw [if_pos h2] at h; cases h
    · rw [if_neg h2] at h ⊢
      cases hrp : runProgressCreates fails (freshJobCardId s₁)
          (activeMembersOf (assignCapacityState s₁ incidentId st now)
            st.team.id).enum
          (assignCapacityState s₁ incidentId st now) with
      | mk o s₄ =>
        rw [hrp] at h
        cases o with
        | some e => cases h
        | none =>
          dsimp only at h ⊢
          by_cases h3 : fails WriteStep.updateIncident
          · rw [if_pos h3] at h; cases h
          · rw [if_neg h3] at h ⊢
            by_cases h4 : fails WriteStep.createActivityLog
            · rw [if_pos h4] at h; cases h
            · rw [if_neg h4] at h ⊢
              have hs4 : s₄.incidents = s₁.incidents := by
                have hh := congrArg
                  (fun p : Option String × DBState => p.2.incidents) hrp
                simp only at hh
                rw [← hh]
                exact runProgressCreates_incidents fails (freshJobCardId s₁) _ _
              show (assignIncidentState s₄ incidentId st cat now).incidents = _
              unfold assignIncidentState
              rw [updateIncidentRow_incidents, hs4]

theorem assign_not_found {s : DBState} {incidentId managerId : Nat} {now : ℤ}
    {hour dayOfWeek : Nat} {fails : WriteStep → Bool}
    (h : findIncident s incidentId = none) :
    assignIncidentWithRules s incidentId managerId now hour dayOfWeek fails =
      ⟨some "Incident not found", s⟩ := by
  unfold assignIncidentWithRules
  rw [h]

theorem assign_not_verified {s : DBState} {incidentId managerId : Nat} {now : ℤ}
    {hour dayOfWeek : Nat} {fails : WriteStep → Bool} {inc : IncidentRow}
    (h1 : findIncident s incidentId = some inc) (h2 : inc.status ≠ "verified") :
    assignIncidentWithRules s incidentId managerId now hour dayOfWeek fails =
      ⟨some "Incident is not ready for assignment", s⟩ := by
  unfold assignIncidentWithRules
  rw [h1]
  dsimp only
  rw [if_pos h2]

theorem assign_success_incidents {s : DBState} {incidentId managerId : Nat}
    {now : ℤ} {hour dayOfWeek : Nat} {fails : WriteStep → Bool}
    (h : (assignIncidentWithRules s incidentId managerId now hour dayOfWeek
          fails).error = none) :
    ∃ inc tid pr reas,
      findIncident s incidentId = some inc ∧ inc.status = "verified" ∧
      (assignIncidentWithRules s incidentId managerId now hour dayOfWeek
          fails).state.incidents =
        s.incidents.map (fun i => if i.id = incidentId then
          { i with status := "In Progress", assignedTeamId := some tid,
                   assignedAt := some now, priority := some pr,
                   categoryReasoning := some reas } else i) := by
  cases hf : findIncident s incidentId with
  | none => rw [assign_not_found hf] at h; cases h
  | some inc =>
    by_cases hv : inc.status ≠ "verified"
    · rw [assign_not_verified hf hv] at h; cases h
    · have hunf : assignIncidentWithRules s incidentId managerId now hour
          dayOfWeek fails =
          (match selectBestTeamWithRules ((getAvailableTeams s managerId now).2)
              ((getAvailableTeams s managerId now).1) inc.location hour dayOfWeek
              (categorizeIncident inc) with
           | none =>
             ⟨some "No eligible teams available for assignment under current rules",
               (getAvailableTeams s managerId now).2⟩
           | some selectedTeam =>
             performAssignmentWrites ((getAvailableTeams s managerId now).2)
               incidentId managerId now inc (categorizeIncident inc)
               selectedTeam fails) := by
        unfold assignIncidentWithRules
        rw [hf]
        dsimp only
        rw [if_neg hv]
      cases hsel : selectBestTeamWithRules ((getAvailableTeams s managerId now).2)
          ((getAvailableTeams s managerId now).1) inc.location hour dayOfWeek
          (categorizeIncident inc) with
      | none =>
        rw [hunf, hsel] at h
        cases h
      | some st =>
        rw [hunf, hsel] at h
        dsimp only at h
        rw [hunf, hsel]
        refine ⟨inc, st.team.id, (categorizeIncident inc).category,
          (categorizeIncident inc).reasoning, rfl, not_not.mp hv, ?_⟩
        dsimp only
        rw [performWrites_incidents h]
        rw [getAvailableTeams_incidents]

theorem find?_if_update (l : List IncidentRow) (id : Nat)
    (f : IncidentRow → IncidentRow) (hf : ∀ i, (f i).id = i.id) :
    (l.map (fun i => if i.id = id then f i else i)).find? (fun i => i.id = id) =
      (l.find? (fun i => i.id = id)).map f := by
  induction l with
  | nil => rfl
  | cons a l ih =>
    by_cases h : a.id = id
    · simp [List.find?, h, hf]
    · simp [List.find?, h, ih]

theorem eq_of_id_nodup {l : List IncidentRow}
    (hn : (l.map (·.id)).Nodup) {a b : IncidentRow} (ha : a ∈ l) (hb : b ∈ l)
    (hid : a.id = b.id) : a = b :=
  List.inj_on_of_nodup_map hn ha hb hid

theorem teamAssignment_valid_isSome {s : DBState} {inc : IncidentRow}
    {targetStatus : String}
    (h : (validateTeamAssignment s inc targetStatus).valid = true) :
    inc.assignedTeamId.isSome = true := by
  unfold validateTeamAssignment at h
  cases hm : inc.assignedTeamId with
  | none => rw [hm] at h; cases h
  | some tid => rfl

theorem dataIntegrity_verified {s : DBState} {inc : IncidentRow}
    (h : (dataIntegrityErrors s inc "verified").isEmpty = true) :
    inc.assignedTeamId = none := by
  cases hteam : inc.assignedTeamId with
  | none => rfl
  | some tid =>
    exfalso
    unfold dataIntegrityErrors at h
    rw [hteam] at h
    simp [List.isEmpty_iff] at h

theorem validChange_facts {s : DBState} {incId : Nat} {new : String}
    {uid : Nat} {role : String} {now : ℤ}
    (h : (validateIncidentStatusChange s incId new uid role now).valid = true) :
    ∃ inc, findIncident s incId = some inc ∧
      (validateIncidentStatusChange s incId new uid role now).incident =
        some inc ∧
      (requiresTeamAssignment new = true → inc.assignedTeamId.isSome = true) ∧
      (new = "verified" → inc.assignedTeamId = none) := by
  unfold validateIncidentStatusChange at h ⊢
  cases hf : findIncident s incId with
  | none => rw [hf] at h; cases h
  | some inc =>
    rw [hf] at h
    dsimp only at h ⊢
    by_cases b1 : (!(validateStatusTransition inc.status new).valid) = true
    · rw [if_pos b1] at h; cases h
    · rw [if_neg b1] at h ⊢
      by_cases b2 : (requiresTeamAssignment new &&
          !(validateTeamAssignment s inc new).valid) = true
      · rw [if_pos b2] at h; cases h
      · rw [if_neg b2] at h ⊢
        by_cases b3 : (requiresManagerAuthorization new &&
            !(validateManagerAuthorization s inc uid role).valid) = true
        · rw [if_pos b3] at h; cases h
        · rw [if_neg b3] at h ⊢
          by_cases b4 : (!(validateBusinessRules inc new now).valid) = true
          · rw [if_pos b4] at h; cases h
          · rw [if_neg b4] at h ⊢
            by_cases b5 : (!(automatedProgressionErrors s inc new now).isEmpty) =
                true
            · rw [if_pos b5] at h; cases h
            · rw [if_neg b5] at h ⊢
              by_cases b6 : (!(dataIntegrityErrors s inc new).isEmpty) = true
              · rw [if_pos b6] at h; cases h
              · rw [if_neg b6] at h ⊢
                refine ⟨inc, rfl, rfl, ?_, ?_⟩
                · intro hr
                  have hv : (validateTeamAssignment s inc new).valid = true := by
                    by_contra hcon
                    rw [Bool.not_eq_true] at hcon
                    exact b2 (by rw [hr, hcon]; rfl)
                  exact teamAssignment_valid_isSome hv
                · intro hvv
                  subst hvv
                  have hempty :
                      (dataIntegrityErrors s inc "verified").isEmpty = true := by
                    by_contra hcon
                    rw [Bool.not_eq_true] at hcon
                    exact b6 (by rw [hcon]; rfl)
                  exact dataIntegrity_verified hempty

/-! ## Claim theorems -/

/-- **C1, counterexample.**  The claim says the Status Machine accepts
exactly the pairs of the spec's strict table, in particular that from
`assigned` the legal destinations are `In Progress`, `Completed` and
`Cancelled`.  The code's `statusTransitions` object has no `'assigned'`
key, so `statusTransitions[current] || []` is empty and every request out
of `assigned` — including the three the table allows — is rejected. -/
theorem C1_counterexample :
    (validateStatusTransition "assigned" "In Progress").valid = false ∧
    (validateStatusTransition "assigned" "Completed").valid = false ∧
    (validateStatusTransition "assigned" "Cancelled").valid = false := by
  refine ⟨rfl, rfl, rfl⟩

/-- **C1, amended.**  `validateStatusTransition` accepts exactly the pairs
of the code's own table (`Not Started → {verified}`, `verified →
{In Progress, Completed, Cancelled}`, `In Progress → {Completed,
Cancelled}`, `Completed/Cancelled → {}`), in which `assigned` has no row —
so from `assigned` every request is rejected; every rejection names the
`(current, requested)` pair and lists the legal destinations (`None` when
there are none). -/
theorem C1_amended (current new : String) :
    ((validateStatusTransition current new).valid = true ↔
      new ∈ allowedTransitions current) ∧
    allowedTransitions "assigned" = [] ∧
    ((validateStatusTransition current new).valid = false →
      (validateStatusTransition current new).error =
        some (transitionErrorMessage current new)) := by
  refine ⟨?_, rfl, ?_⟩
  · unfold validateStatusTransition
    by_cases h : new ∈ allowedTransitions current
    · simp [List.contains, List.elem_eq_mem, h]
    · simp [List.contains, List.elem_eq_mem, h]
  · intro hfail
    unfold validateStatusTransition at hfail ⊢
    by_cases h : (allowedTransitions current).contains new
    · rw [if_pos h] at hfail
      cases hfail
    · rw [if_neg h] at hfail ⊢

/-- **C1, witness** for the amended theorem at the pair
`(assigned, In Progress)`. -/
theorem C1_amended_witness :
    (validateStatusTransition "assigned" "In Progress").valid = false ∧
    (validateStatusTransition "assigned" "In Progress").error =
      some (transitionErrorMessage "assigned" "In Progress") :=
  ⟨rfl, (C1_amended "assigned" "In Progress").2.2 rfl⟩

/-- **C8.**  `categorizeIncident` lowercases title+description+location
and returns the first category, in the order critical, high, medium, low,
with at least one keyword hit, defaulting to `medium` (first conjunct:
equality with the spec's priority-order algorithm); the incident with
description "emergency sewage overflow" is categorized `critical` with a
4-hour SLA target and the matched keywords recorded in `reasoning`. -/
theorem C8_categorizer :
    (∀ i : IncidentRow,
      (categorizeIncident i).category = specFirstCategory (incidentFullText i)) ∧
    (categorizeIncident cEmergencyIncident).category = "critical" ∧
    (categorizeIncident cEmergencyIncident).rules.slaTarget = 4 * 60 * 60 * 1000 ∧
    (categorizeIncident cEmergencyIncident).reasoning =
      "Matched 2 keywords: emergency, overflow" := by
  refine ⟨?_, rfl, rfl, rfl⟩
  intro i
  have h := firstKeywordMatch_category (incidentFullText i) keywordRuleEntries
  unfold categorizeIncident specFirstCategory
  rw [show ([("critical", criticalRules), ("high", highRules), ("medium", mediumRules),
      ("low", lowRules)] : List (String × CategoryRules)) = keywordRuleEntries from rfl]
  rw [← h]
  cases firstKeywordMatch (incidentFullText i) keywordRuleEntries <;> rfl

/-- **C10.**  The fetch of a scheduler cycle is right — only `verified`,
unassigned incidents, oldest first — but the history recording is broken:
the constructor builds `assignmentHistory` as `new Set()` while the
recording calls the `Map` method `.set(id, ts)`, which throws `TypeError`.
The thrown error is caught by the per-incident `try/catch` and counted as
an error (`success++` is skipped), and the history stays empty, so no
cooldown exclusion ever happens.  Here a cycle over one assignable
incident whose assignment call itself succeeds still reports
`success = 0, errors = 1` and leaves the history unchanged. -/
theorem C10_history_recording_bug :
    getUnassignedIncidents cSchedState schedulerInitialHistory 1000000 =
      .ok [cSchedIncident] ∧
    historyCallSet schedulerInitialHistory 1 1000000 = .error () ∧
    processIncidentsByPriority false (fun _ st => (none, st)) 10 1000000
        [cSchedIncident] schedulerInitialHistory cSchedState =
      (⟨0, 1⟩, schedulerInitialHistory, cSchedState) := by
  refine ⟨rfl, rfl, rfl⟩

set_option maxRecDepth 4000 in
/-- **C9.**  With `assigned_at` non-null: validating
a transition to `Completed` fails whenever less than one hour
(3 600 000 ms) has elapsed — either because the incident is not yet
`In Progress` or by the 1-hour rule of `validateBusinessRules`; the
minute-granularity dwell chunk of
`validateAutomatedProgressionRequirements` likewise errors under 60
minutes; and both dwell rules pass at (and beyond) 60 minutes + 1 second
(3 601 000 ms). -/
theorem C9_dwell_time :
    (∀ (inc : IncidentRow) (t now : ℤ), inc.assignedAt = some t →
      now - t < 3600000 →
      (validateBusinessRules inc "Completed" now).valid = false) ∧
    (∀ (t now : ℤ), now - t < 3600000 →
      minimumTimeChunk 60 (some t) now = [dwellTimeError]) ∧
    (∀ (inc : IncidentRow) (t now : ℤ), inc.assignedAt = some t →
      inc.status = "In Progress" → 3601000 ≤ now - t →
      (validateBusinessRules inc "Completed" now).valid = true) ∧
    (∀ (t now : ℤ), 3601000 ≤ now - t →
      minimumTimeChunk 60 (some t) now = []) := by
  refine ⟨?_, ?_, ?_, ?_⟩
  · intro inc t now hat hlt
    have hdiv : ((now : ℚ) - (t : ℚ)) / (1000 * 60 * 60) < 1 := by
      rw [div_lt_one (by norm_num)]
      have hq : ((now : ℚ) - (t : ℚ)) < 3600000 := by
        have hc : ((now - t : ℤ) : ℚ) < 3600000 := by exact_mod_cast hlt
        push_cast at hc
        linarith
      linarith
    unfold validateBusinessRules
    rw [hat]
    by_cases hs : inc.status = "In Progress"
    · rw [hs]
      simp [hdiv]
    · simp [hs]
  · intro t now hlt
    have hdiv : ((now - t : ℤ) : ℚ) / (1000 * 60) < ((60 : ℕ) : ℚ) := by
      rw [div_lt_iff₀ (by norm_num)]
      have hq : ((now - t : ℤ) : ℚ) < 3600000 := by exact_mod_cast hlt
      have h60 : ((60 : ℕ) : ℚ) * (1000 * 60) = 3600000 := by norm_num
      linarith
    simp only [minimumTimeChunk]
    rw [if_pos (by norm_num), if_pos hdiv]
    rfl
  · intro inc t now hat hs hle
    have hdiv : ¬ (((now : ℚ) - (t : ℚ)) / (1000 * 60 * 60) < 1) := by
      rw [div_lt_one (by norm_num)]
      intro hc
      have hq : (3601000 : ℚ) ≤ ((now : ℚ) - (t : ℚ)) := by
        have hc : (3601000 : ℚ) ≤ ((now - t : ℤ) : ℚ) := by exact_mod_cast hle
        push_cast at hc
        linarith
      linarith
    unfold validateBusinessRules
    rw [hat, hs]
    simp [hdiv]
  · intro t now hle
    have hdiv : ¬ (((now - t : ℤ) : ℚ) / (1000 * 60) < ((60 : ℕ) : ℚ)) := by
      rw [div_lt_iff₀ (by norm_num)]
      intro hc
      have hq : (3601000 : ℚ) ≤ ((now - t : ℤ) : ℚ) := by exact_mod_cast hle
      have h60 : ((60 : ℕ) : ℚ) * (1000 * 60) = 3600000 := by norm_num
      linarith
    simp only [minimumTimeChunk]
    rw [if_pos (by norm_num), if_neg hdiv]

/-- **C2, counterexample.**  The claim says every state-changing operation
preserves `assigned_team_id` non-null ⇔ status ∈ {Assigned, InProgress,
Completed}.  A fully validated `In Progress → Cancelled` change passes all
six validation stages yet `applyStatusChange` leaves `assigned_team_id`
untouched, producing a `Cancelled` incident that still carries team 7 —
the invariant is violated. -/
theorem C2_counterexample :
    (validateIncidentStatusChange cCancelState 1 "Cancelled" 9 "manager"
      100000000).valid = true ∧
    (applyStatusChange cCancelState 1 "Cancelled"
        (validateIncidentStatusChange cCancelState 1 "Cancelled" 9 "manager"
          100000000) none 9 100000000).incidents =
      [⟨1, "t", "d", "loc", "Cancelled", some 7, some 0, none, none, 0⟩] ∧
    specAssignmentInvariant
      ⟨1, "t", "d", "loc", "Cancelled", some 7, some 0, none, none, 0⟩ =
      false := by
  refine ⟨by decide, by decide, by decide⟩

/-- **C2, amended.**  Assignment and revert do preserve the full
invariant: a successful `assignIncidentWithRules` leaves every incident
satisfying it (the assigned one ends `In Progress` with a team), and a
successful revert does too (the reverted one ends `verified` with no
team).  The validated status change preserves only the weaker invariant —
statuses requiring a team imply a team is present, and `verified` implies
no team — because a validated transition to `Cancelled` keeps the stale
team assignment. -/
theorem C2_amended :
    (∀ (s : DBState) (incidentId managerId : Nat) (now : ℤ)
      (hour dayOfWeek : Nat) (fails : WriteStep → Bool),
      (∀ i ∈ s.incidents, specAssignmentInvariant i = true) →
      (assignIncidentWithRules s incidentId managerId now hour dayOfWeek
        fails).error = none →
      ∀ i ∈ (assignIncidentWithRules s incidentId managerId now hour dayOfWeek
        fails).state.incidents, specAssignmentInvariant i = true) ∧
    (∀ (s : DBState) (incidentId managerId : Nat),
      (∀ i ∈ s.incidents, specAssignmentInvariant i = true) →
      (revertAssignment s incidentId managerId).success = true →
      ∀ i ∈ (revertAssignment s incidentId managerId).state.incidents,
        specAssignmentInvariant i = true) ∧
    (∀ (s : DBState) (incId : Nat) (new : String) (uid : Nat) (role : String)
      (now : ℤ),
      (s.incidents.map (·.id)).Nodup →
      (∀ i ∈ s.incidents, weakAssignmentInvariant i = true) →
      (validateIncidentStatusChange s incId new uid role now).valid = true →
      ∀ i ∈ (applyStatusChange s incId new
          (validateIncidentStatusChange s incId new uid role now) none uid
          now).incidents, weakAssignmentInvariant i = true) := by
  refine ⟨?_, ?_, ?_⟩
  · intro s incidentId managerId now hour dayOfWeek fails hinv hok i hi
    obtain ⟨inc, tid, pr, reas, hf, hv, hst⟩ := assign_success_incidents hok
    rw [hst] at hi
    rcases List.mem_map.mp hi with ⟨j, hj, hij⟩
    by_cases hjid : j.id = incidentId
    · rw [if_pos hjid] at hij
      rw [← hij]
      rfl
    · rw [if_neg hjid] at hij
      rw [← hij]
      exact hinv j hj
  · intro s incidentId managerId hinv hsucc i hi
    unfold revertAssignment at hsucc hi
    cases hfr : findIncident s incidentId with
    | none => rw [hfr] at hsucc; cases hsucc
    | some inc =>
      rw [hfr] at hsucc hi
      cases ho : (ownedJobCardsOf s managerId incidentId).head? with
      | none =>
        rw [ho] at hsucc
        dsimp only at hsucc
        cases hsucc
      | some jc =>
        rw [ho] at hi
        dsimp only at hi
        simp only [updateIncidentRow] at hi
        rcases List.mem_map.mp hi with ⟨j, hj, hij⟩
        by_cases hjid : j.id = inc.id
        · rw [if_pos hjid] at hij
          rw [← hij]
          rfl
        · rw [if_neg hjid] at hij
          rw [← hij]
          exact hinv j hj
  · intro s incId new uid role now hnodup hweak hvalid i hi
    obtain ⟨inc, hf, hincident, hreq, hver⟩ := validChange_facts hvalid
    unfold applyStatusChange at hi
    rw [hincident] at hi
    dsimp only at hi
    simp only [updateIncidentRow] at hi
    rcases List.mem_map.mp hi with ⟨j, hj, hij⟩
    by_cases hjid : j.id = inc.id
    · have hjinc : j = inc := by
        refine eq_of_id_nodup hnodup hj ?_ hjid
        exact List.mem_of_find?_eq_some hf
      subst hjinc
      rw [if_pos hjid] at hij
      rw [← hij]
      unfold weakAssignmentInvariant
      dsimp only
      cases hr : requiresTeamAssignment new with
      | true =>
        have h1 := hreq hr
        cases hv2 : decide (new = "verified") with
        | true =>
          have h2 := hver (of_decide_eq_true hv2)
          rw [h2] at h1
          cases h1
        | false => simp [h1, hv2]
      | false =>
        cases hv2 : decide (new = "verified") with
        | true =>
          have h2 := hver (of_decide_eq_true hv2)
          simp [h2, hv2]
        | false => simp [hv2]
    · rw [if_neg hjid] at hij
      rw [← hij]
      exact hweak j hj

/-- **C2, witness** for the amended theorem: the concrete assignment,
revert and validated-cancel scenarios. -/
theorem C2_amended_witness :
    (∀ i ∈ (assignIncidentWithRules cAssignState 1 9 1000 10 2
        noWriteFailure).state.incidents, specAssignmentInvariant i = true) ∧
    (∀ i ∈ (revertAssignment cRevertState 1 9).state.incidents,
      specAssignmentInvariant i = true) ∧
    (∀ i ∈ (applyStatusChange cCancelState 1 "Cancelled"
        (validateIncidentStatusChange cCancelState 1 "Cancelled" 9 "manager"
          100000000) none 9 100000000).incidents,
      weakAssignmentInvariant i = true) :=
  ⟨C2_amended.1 cAssignState 1 9 1000 10 2 noWriteFailure (by decide)
      (by decide),
   C2_amended.2.1 cRevertState 1 9 (by decide) (by decide),
   C2_amended.2.2 cCancelState 1 "Cancelled" 9 "manager" 100000000 (by decide)
     (by decide) (by decide)⟩

/-- **C3, counterexample.**  The claim says every failing step leaves the
state unchanged (all-or-nothing).  There is no transaction: failing the
`Team.update` capacity step right after `JobCard.create` reports an error
but leaves the freshly created job card behind — the state differs from
the initial one. -/
theorem C3_counterexample :
    (assignIncidentWithRules cAssignState 1 9 1000 10 2
      failCapacityUpdate).error.isSome = true ∧
    (assignIncidentWithRules cAssignState 1 9 1000 10 2
      failCapacityUpdate).state ≠ cAssignState ∧
    (assignIncidentWithRules cAssignState 1 9 1000 10 2
      failCapacityUpdate).state.jobCards =
      [⟨1, 1, 7, none, "not_started", 1000, none, none⟩] := by
  refine ⟨by decide, by decide, by decide⟩

/-- **C3, amended.**  Failures raised before the first write — incident
not found, or incident not in `verified` status — abort the operation with
the state unchanged.  Once the write sequence has begun there is no
rollback: a later failing step keeps every earlier write (the
counterexample shows the capacity-update failure keeping the job
card). -/
theorem C3_amended :
    (∀ (s : DBState) (incidentId managerId : Nat) (now : ℤ)
      (hour dayOfWeek : Nat) (fails : WriteStep → Bool),
      findIncident s incidentId = none →
      assignIncidentWithRules s incidentId managerId now hour dayOfWeek fails =
        ⟨some "Incident not found", s⟩) ∧
    (∀ (s : DBState) (incidentId managerId : Nat) (now : ℤ)
      (hour dayOfWeek : Nat) (fails : WriteStep → Bool) (inc : IncidentRow),
      findIncident s incidentId = some inc → inc.status ≠ "verified" →
      assignIncidentWithRules s incidentId managerId now hour dayOfWeek fails =
        ⟨some "Incident is not ready for assignment", s⟩) :=
  ⟨fun _ _ _ _ _ _ _ hf => assign_not_found hf,
   fun _ _ _ _ _ _ _ _ hf hv => assign_not_verified hf hv⟩

/-- **C3, witness**: a missing incident and a `Completed` incident both
abort with the state unchanged. -/
theorem C3_amended_witness :
    assignIncidentWithRules cEmptyState 1 9 1000 10 2 noWriteFailure =
      ⟨some "Incident not found", cEmptyState⟩ ∧
    assignIncidentWithRules cRevertState 1 9 1000 10 2 noWriteFailure =
      ⟨some "Incident is not ready for assignment", cRevertState⟩ :=
  ⟨C3_amended.1 cEmptyState 1 9 1000 10 2 noWriteFailure rfl,
   C3_amended.2 cRevertState 1 9 1000 10 2 noWriteFailure cCompletedIncident
     rfl (by decide)⟩

/-- **C5.**  Part 1: calling assign on an incident that is no longer
`verified` fails with `Incident is not ready for assignment` and performs
no write at all (the returned state is the input state).  Part 2: after a
successful assignment the incident is `In Progress`, so a second assign
call on the same incident — with any clock, manager or failure oracle —
fails and returns the post-first-assignment state unchanged; in
particular the selected team's `current_capacity` is incremented exactly
once across the two calls. -/
theorem C5_assign_idempotent :
    (∀ (s : DBState) (incidentId managerId : Nat) (now : ℤ)
      (hour dayOfWeek : Nat) (fails : WriteStep → Bool) (inc : IncidentRow),
      findIncident s incidentId = some inc → inc.status ≠ "verified" →
      assignIncidentWithRules s incidentId managerId now hour dayOfWeek fails =
        ⟨some "Incident is not ready for assignment", s⟩) ∧
    (∀ (s : DBState) (incidentId managerId : Nat) (now : ℤ)
      (hour dayOfWeek : Nat) (fails : WriteStep → Bool) (managerId₂ : Nat)
      (now₂ : ℤ) (hour₂ dayOfWeek₂ : Nat) (fails₂ : WriteStep → Bool),
      (assignIncidentWithRules s incidentId managerId now hour dayOfWeek
        fails).error = none →
      assignIncidentWithRules
          (assignIncidentWithRules s incidentId managerId now hour dayOfWeek
            fails).state incidentId managerId₂ now₂ hour₂ dayOfWeek₂ fails₂ =
        ⟨some "Incident is not ready for assignment",
          (assignIncidentWithRules s incidentId managerId now hour dayOfWeek
            fails).state⟩) := by
  constructor
  · intro s incidentId managerId now hour dayOfWeek fails inc hf hv
    exact assign_not_verified hf hv
  · intro s incidentId managerId now hour dayOfWeek fails managerId₂ now₂
      hour₂ dayOfWeek₂ fails₂ hok
    obtain ⟨inc, tid, pr, reas, hf, hv, hst⟩ := assign_success_incidents hok
    have hfind : findIncident
        (assignIncidentWithRules s incidentId managerId now hour dayOfWeek
          fails).state incidentId =
        some { inc with status := "In Progress", assignedTeamId := some tid,
                        assignedAt := some now, priority := some pr,
                        categoryReasoning := some reas } := by
      unfold findIncident
      rw [hst]
      rw [find?_if_update s.incidents incidentId
        (fun j => { j with status := "In Progress", assignedTeamId := some tid,
                           assignedAt := some now, priority := some pr,
                           categoryReasoning := some reas }) (fun _ => rfl)]
      unfold findIncident at hf
      rw [hf]
      rfl
    exact assign_not_verified hfind (by simp)

/-- **C5, witness**: assigning the concrete verified incident succeeds
once; the immediate retry fails and changes nothing. -/
theorem C5_assign_idempotent_witness :
    assignIncidentWithRules
        (assignIncidentWithRules cAssignState 1 9 1000 10 2
          noWriteFailure).state 1 9 2000 10 2 noWriteFailure =
      ⟨some "Incident is not ready for assignment",
        (assignIncidentWithRules cAssignState 1 9 1000 10 2
          noWriteFailure).state⟩ ∧
    assignIncidentWithRules cRevertState 1 9 1000 10 2 noWriteFailure =
      ⟨some "Incident is not ready for assignment", cRevertState⟩ :=
  ⟨C5_assign_idempotent.2 cAssignState 1 9 1000 10 2 noWriteFailure 9 2000 10 2
     noWriteFailure (by decide),
   C5_assign_idempotent.1 cRevertState 1 9 1000 10 2 noWriteFailure
     cCompletedIncident rfl (by decide)⟩

/-- **C4, counterexample.**  The claim says revert restores the team's
`current_capacity` (decrement) and is only permitted from
Assigned/InProgress.  The route decrements nothing (`teams` is untouched,
capacity stays 3) and happily reverts a `Completed` incident. -/
theorem C4_counterexample :
    (revertAssignment cRevertState 1 9).success = true ∧
    (findIncident cRevertState 1).map (·.status) = some "Completed" ∧
    (revertAssignment cRevertState 1 9).state.teams = cRevertState.teams := by
  refine ⟨rfl, rfl, rfl⟩

/-- **C4, amended.**  Whenever the incident exists and carries a job card
owned by the requesting manager — regardless of its current status,
including `Completed` — the revert succeeds: it destroys that job card,
resets the incident to `verified` and clears `assigned_team_id`,
`assigned_at`, `priority` and `category_reasoning`; the `teams` table (in
particular `current_capacity`) is left untouched.  With no owned job card
it fails (HTTP 400) with no change. -/
theorem C4_amended :
    (∀ (s : DBState) (incId mgr : Nat) (inc : IncidentRow),
      findIncident s incId = some inc → ownedJobCardsOf s mgr incId = [] →
      revertAssignment s incId mgr = ⟨400, false, s⟩) ∧
    (∀ (s : DBState) (incId mgr : Nat) (inc : IncidentRow) (jc : JobCardRow),
      findIncident s incId = some inc →
      (ownedJobCardsOf s mgr incId).head? = some jc →
      (revertAssignment s incId mgr).success = true ∧
      (revertAssignment s incId mgr).state.teams = s.teams ∧
      (revertAssignment s incId mgr).state.jobCards =
        s.jobCards.filter (·.id ≠ jc.id) ∧
      (∀ i ∈ (revertAssignment s incId mgr).state.incidents, i.id = inc.id →
        i.status = "verified" ∧ i.assignedTeamId = none ∧ i.assignedAt = none ∧
          i.priority = none ∧ i.categoryReasoning = none)) := by
  constructor
  · intro s incId mgr inc hf ho
    unfold revertAssignment
    rw [hf, ho]
    rfl
  · intro s incId mgr inc jc hf ho
    unfold revertAssignment
    rw [hf, ho]
    refine ⟨rfl, rfl, rfl, ?_⟩
    intro i hi hid
    simp only [updateIncidentRow] at hi
    rcases List.mem_map.mp hi with ⟨j, hj, hij⟩
    by_cases hjid : j.id = inc.id
    · rw [if_pos hjid] at hij
      rw [← hij]
      exact ⟨rfl, rfl, rfl, rfl, rfl⟩
    · rw [if_neg hjid] at hij
      rw [← hij] at hid
      exact absurd hid hjid

/-- **C4, witness** for the amended theorem: the `Completed` scenario for
the owned-job-card half, and a foreign manager (id 5) for the no-owned-
job-card half. -/
theorem C4_amended_witness :
    ((revertAssignment cRevertState 1 9).success = true ∧
      (revertAssignment cRevertState 1 9).state.teams = cRevertState.teams ∧
      (revertAssignment cRevertState 1 9).state.jobCards =
        cRevertState.jobCards.filter (·.id ≠ cJobCard14.id) ∧
      (∀ i ∈ (revertAssignment cRevertState 1 9).state.incidents,
        i.id = cCompletedIncident.id →
        i.status = "verified" ∧ i.assignedTeamId = none ∧ i.assignedAt = none ∧
          i.priority = none ∧ i.categoryReasoning = none)) ∧
    revertAssignment cRevertState 1 5 = ⟨400, false, cRevertState⟩ :=
  ⟨C4_amended.2 cRevertState 1 9 cCompletedIncident cJobCard14 rfl rfl,
   C4_amended.1 cRevertState 1 5 cCompletedIncident rfl rfl⟩

/-- **C6.**  Neither selection routine ever returns a team at or above
capacity: `selectBestTeam` (for every random draw) and the rule-based
`selectBestTeamWithRules` (strict and relaxed path alike) only pick from
candidates filtered by `currentCapacity < maxCapacity`. -/
theorem C6_capacity_never_exceeded :
    (∀ (teams : List AvailTeam) (rand : ℚ) (st : ScoredTeam),
      selectBestTeam teams rand = some st →
      st.team.currentCapacity < st.team.maxCapacity) ∧
    (∀ (s : DBState) (teams : List AvailTeam) (loc : String) (hr dw : Nat)
      (cat : Categorization) (st : ScoredTeam),
      selectBestTeamWithRules s teams loc hr dw cat = some st →
      st.team.currentCapacity < st.team.maxCapacity) := by
  constructor
  · intro teams rand st hsel
    unfold selectBestTeam at hsel
    by_cases he : (selectBestTeamEligible teams).isEmpty
    · rw [if_pos he] at hsel; cases hsel
    · rw [if_neg he] at hsel
      have hmem : st ∈ selectBestTeamTop teams := List.getElem?_mem hsel
      have hsc : st ∈ (selectBestTeamEligible teams).map
          (fun t => ScoredTeam.mk t
            (selectBestTeamScore (selectBestTeamEligible teams) t)) :=
        topTeams_sub hmem
      rcases List.mem_map.mp hsc with ⟨t, ht, hst⟩
      have hcond := (List.mem_filter.mp ht).2
      rw [← hst]
      simp only [Bool.and_eq_true, decide_eq_true_eq] at hcond
      exact hcond.1.2
  · intro s teams loc hr dw cat st hsel
    unfold selectBestTeamWithRules at hsel
    by_cases he : (rulesEligible s cat teams).isEmpty
    · rw [if_pos he] at hsel; cases hsel
    · rw [if_neg he] at hsel
      have hmem : st ∈ rulesScoredTeams s teams loc hr dw cat :=
        reduceBest_mem hsel
      unfold rulesScoredTeams at hmem
      rcases List.mem_map.mp hmem with ⟨t, ht, hst⟩
      rw [← hst]
      unfold rulesEligible at ht
      by_cases hstrict : (rulesEligibleStrict s cat teams).isEmpty
      · rw [if_pos hstrict] at ht
        have hcond := (List.mem_filter.mp ht).2
        simp only [Bool.and_eq_true, decide_eq_true_eq] at hcond
        exact hcond.1.2
      · rw [if_neg hstrict] at ht
        have hcond := (List.mem_filter.mp ht).2
        simp only [Bool.and_eq_true, decide_eq_true_eq] at hcond
        exact hcond.1.1.2

/-- **C6, witness**: both selectors applied to the concrete spare-capacity
teams. -/
theorem C6_witness :
    cTieTeamA.currentCapacity < cTieTeamA.maxCapacity ∧
    cTieTeamA.currentCapacity < cTieTeamA.maxCapacity :=
  ⟨C6_capacity_never_exceeded.1 [cTieTeamA] 0 ⟨cTieTeamA, 1⟩ (by
      norm_num [selectBestTeam, selectBestTeamTop, selectBestTeamEligible,
        topTeams, selectBestTeamScore, qMax, cTieTeamA]),
   C6_capacity_never_exceeded.2 cEmptyState [cTieTeamA, cTieTeamB] "" 10 2
     cMediumCat ⟨cTieTeamA, 19/25⟩ (by
      norm_num +decide [selectBestTeamWithRules, rulesScoredTeams, rulesEligible,
        rulesEligibleStrict, rulesEligibleRelaxed, reduceBestByScore, pickBest,
        finalScoreFor, ruleBonusFor, qMax, applyGeographicRules,
        applyTimeBasedRules, geoZoneMatch, geographicZones,
        teamsMatchingPreference, businessHoursPreferredTeams,
        extractTeamCapabilities, capabilityPriorityBoost,
        countPriorityAssignments, cEmptyState, cTieTeamA, cTieTeamB, cMediumCat,
        categorizeIncident, incidentFullText, firstKeywordMatch,
        keywordRuleEntries, matchedKeywords, strIncludes, jsToLower, containsSeg,
        isPrefB, mediumRules, criticalRules, highRules, lowRules, findIncident])⟩

/-- **C7, counterexample.**  The claim says ties in the final score are
broken by uniform-random choice in both selectors.  `selectBestTeamWithRules`
takes no randomness at all: it reduces with a strict `>`, so on two teams
with identical scores (here both 19/25) it deterministically returns the
first; the tied second team is never returned on any run. -/
theorem C7_counterexample :
    selectBestTeamWithRules cEmptyState [cTieTeamA, cTieTeamB] "" 10 2 cMediumCat =
      some ⟨cTieTeamA, 19/25⟩ ∧
    finalScoreFor (rulesEligible cEmptyState cMediumCat [cTieTeamA, cTieTeamB])
        (applyGeographicRules "" [cTieTeamA, cTieTeamB])
        (applyTimeBasedRules 10 2 [cTieTeamA, cTieTeamB])
        cMediumCat.rules.requiredTeamCapabilities cTieTeamA =
      finalScoreFor (rulesEligible cEmptyState cMediumCat [cTieTeamA, cTieTeamB])
        (applyGeographicRules "" [cTieTeamA, cTieTeamB])
        (applyTimeBasedRules 10 2 [cTieTeamA, cTieTeamB])
        cMediumCat.rules.requiredTeamCapabilities cTieTeamB ∧
    cTieTeamA ≠ cTieTeamB := by
  refine ⟨?_, ?_, by decide⟩ <;>
    norm_num +decide [selectBestTeamWithRules, rulesScoredTeams, rulesEligible,
      rulesEligibleStrict, rulesEligibleRelaxed, reduceBestByScore, pickBest,
      finalScoreFor, ruleBonusFor, qMax, applyGeographicRules,
      applyTimeBasedRules, geoZoneMatch, geographicZones,
      teamsMatchingPreference, businessHoursPreferredTeams,
      extractTeamCapabilities, capabilityPriorityBoost,
      countPriorityAssignments, cEmptyState, cTieTeamA, cTieTeamB, cMediumCat,
      categorizeIncident, incidentFullText, firstKeywordMatch,
      keywordRuleEntries, matchedKeywords, strIncludes, jsToLower, containsSeg,
      isPrefB, mediumRules, criticalRules, highRules, lowRules, findIncident]

/-- **C7, amended.**  `selectBestTeam` does break ties by a uniform random
draw: for every `rand ∈ [0,1)` the result is one of the tied top scorers
(`selectBestTeamTop`), and conversely each index `k` of the tied set is
returned for the draw `k / |top|` — never a third team.
`selectBestTeamWithRules`, by contrast, is deterministic: it returns a
maximal-score element of its scored candidates (the first in array order),
which is still always one of the tied top scorers and never a third
team. -/
theorem C7_amended :
    (∀ (teams : List AvailTeam) (rand : ℚ) (st : ScoredTeam),
      0 ≤ rand → rand < 1 → selectBestTeam teams rand = some st →
      st ∈ selectBestTeamTop teams) ∧
    (∀ (teams : List AvailTeam) (k : Nat),
      (selectBestTeamEligible teams).isEmpty = false →
      k < (selectBestTeamTop teams).length →
      selectBestTeam teams ((k : ℚ) / ((selectBestTeamTop teams).length : ℚ)) =
        (selectBestTeamTop teams)[k]?) ∧
    (∀ (s : DBState) (teams : List AvailTeam) (loc : String) (hr dw : Nat)
      (cat : Categorization) (st : ScoredTeam),
      selectBestTeamWithRules s teams loc hr dw cat = some st →
      st ∈ rulesScoredTeams s teams loc hr dw cat ∧
      ∀ y ∈ rulesScoredTeams s teams loc hr dw cat, y.score ≤ st.score) := by
  refine ⟨?_, ?_, ?_⟩
  · intro teams rand st h0 h1 hsel
    unfold selectBestTeam at hsel
    by_cases he : (selectBestTeamEligible teams).isEmpty
    · rw [if_pos he] at hsel; cases hsel
    · rw [if_neg he] at hsel
      exact List.getElem?_mem hsel
  · intro teams k he hk
    unfold selectBestTeam
    rw [he]
    simp only [Bool.false_eq_true, if_false]
    have hlen : ((selectBestTeamTop teams).length : ℚ) ≠ 0 := by
      have : 0 < (selectBestTeamTop teams).length := Nat.lt_of_le_of_lt (Nat.zero_le k) hk
      exact_mod_cast Nat.pos_iff_ne_zero.mp this
    rw [div_mul_cancel₀ _ hlen, Int.floor_natCast, Int.toNat_natCast]
  · intro s teams loc hr dw cat st hsel
    unfold selectBestTeamWithRules at hsel
    by_cases he : (rulesEligible s cat teams).isEmpty
    · rw [if_pos he] at hsel; cases hsel
    · rw [if_neg he] at hsel
      exact ⟨reduceBest_mem hsel, reduceBest_le hsel⟩

/-- **C7, witness**: on the two tied teams, `selectBestTeam` with draw 1/2
returns the second tied team (so it is reachable), the draw `0/|top|`
returns index 0, and `selectBestTeamWithRules` returns a maximal tied
scorer. -/
theorem C7_amended_witness :
    (⟨cTieTeamB, 1⟩ : ScoredTeam) ∈ selectBestTeamTop [cTieTeamA, cTieTeamB] ∧
    selectBestTeam [cTieTeamA, cTieTeamB]
        ((0 : ℚ) / ((selectBestTeamTop [cTieTeamA, cTieTeamB]).length : ℚ)) =
      (selectBestTeamTop [cTieTeamA, cTieTeamB])[0]? ∧
    ((⟨cTieTeamA, 19/25⟩ : ScoredTeam) ∈
        rulesScoredTeams cEmptyState [cTieTeamA, cTieTeamB] "" 10 2 cMediumCat ∧
      ∀ y ∈ rulesScoredTeams cEmptyState [cTieTeamA, cTieTeamB] "" 10 2 cMediumCat,
        y.score ≤ (⟨cTieTeamA, (19:ℚ)/25⟩ : ScoredTeam).score) :=
  ⟨C7_amended.1 [cTieTeamA, cTieTeamB] (1/2) ⟨cTieTeamB, 1⟩ (by norm_num)
      (by norm_num)
      (by norm_num [selectBestTeam, selectBestTeamTop, selectBestTeamEligible,
        topTeams, selectBestTeamScore, qMax, cTieTeamA, cTieTeamB]),
   C7_amended.2.1 [cTieTeamA, cTieTeamB] 0 (by decide)
      (by norm_num [selectBestTeamTop, selectBestTeamEligible, topTeams,
        selectBestTeamScore, qMax, cTieTeamA, cTieTeamB]),
   C7_amended.2.2 cEmptyState [cTieTeamA, cTieTeamB] "" 10 2 cMediumCat
      ⟨cTieTeamA, 19/25⟩
      (by norm_num +decide [selectBestTeamWithRules, rulesScoredTeams,
        rulesEligible, rulesEligibleStrict, rulesEligibleRelaxed,
        reduceBestByScore, pickBest, finalScoreFor, ruleBonusFor, qMax,
        applyGeographicRules, applyTimeBasedRules, geoZoneMatch,
        geographicZones, teamsMatchingPreference, businessHoursPreferredTeams,
        extractTeamCapabilities, capabilityPriorityBoost,
        countPriorityAssignments, cEmptyState, cTieTeamA, cTieTeamB, cMediumCat,
        categorizeIncident, incidentFullText, firstKeywordMatch,
        keywordRuleEntries, matchedKeywords, strIncludes, jsToLower,
        containsSeg, isPrefB, mediumRules, criticalRules, highRules, lowRules,
        findIncident])⟩

/-- **C9, witness**: at 30 minutes both dwell rules fail, at 60 minutes +
1 second both pass. -/
theorem C9_dwell_time_witness :
    (validateBusinessRules cDwellIncident "Completed" 1800000).valid = false ∧
    minimumTimeChunk 60 (some 0) 1800000 = [dwellTimeError] ∧
    (validateBusinessRules cDwellIncident "Completed" 3601000).valid = true ∧
    minimumTimeChunk 60 (some 0) 3601000 = [] :=
  ⟨C9_dwell_time.1 cDwellIncident 0 1800000 rfl (by norm_num),
   C9_dwell_time.2.1 0 1800000 (by norm_num),
   C9_dwell_time.2.2.1 cDwellIncident 0 3601000 rfl rfl (by norm_num),
   C9_dwell_time.2.2.2 0 3601000 (by norm_num)⟩

end BackendHost
